import Mathlib

/-!
Verification of `N6Lib/n6lib/manage_api/_ca_env.py` (OpenSSL-based CA
environment handling): a shallow embedding of the module's data model and
operations, followed by theorems settling the specification claims.

Python strings are embedded as Lean `String`s; Python `datetime.datetime`
values as an explicit record of calendar fields plus an optional UTC offset;
the filesystem as an association list from path strings to entries; fallible
Python code as `Except PyErr`.  Helpers imported by the module from other
parts of the package that are not part of the sources (the serial-number
validator, `datetime_utc_normalize`, `read_file`, `ConfigString`) are
modelled from the specification, each marked as such in its doc comment.
-/

namespace CaEnv

/-! ## Python-level error values -/

/-- The kinds of exceptions the embedded code can raise.  `runtimeCAEnv`
embeds the `RuntimeError('CA env error (...)')` raised by
`TmpEnv._execute_command`; it carries the captured combined output of the
failed toolchain process.  `invalidSSLConfig` embeds `InvalidSSLConfigError`
and carries the message of the underlying parse error (its
`original_exc`). -/
inductive PyErr where
  | typeError
  | valueError
  | keyError (key : String)
  | attributeError (name : String)
  | invalidSSLConfig (original : String)
  | runtimeCAEnv (output : String)
  | ioError (path : String)
  | osError
  deriving DecidableEq, Repr

/-! ## Python string primitives

Faithful (ASCII-range) embeddings of the Python `str` methods the module
uses: `.upper()`, `.lower()`, `.split(sep, maxsplit)`, `.split()`,
`os.path.dirname`, `.rstrip('/')`. -/

/-- `str.upper` on one ASCII character. -/
def pyUpperChar (c : Char) : Char :=
  if c = 'a' then 'A' else if c = 'b' then 'B' else if c = 'c' then 'C'
  else if c = 'd' then 'D' else if c = 'e' then 'E' else if c = 'f' then 'F'
  else if c = 'g' then 'G' else if c = 'h' then 'H' else if c = 'i' then 'I'
  else if c = 'j' then 'J' else if c = 'k' then 'K' else if c = 'l' then 'L'
  else if c = 'm' then 'M' else if c = 'n' then 'N' else if c = 'o' then 'O'
  else if c = 'p' then 'P' else if c = 'q' then 'Q' else if c = 'r' then 'R'
  else if c = 's' then 'S' else if c = 't' then 'T' else if c = 'u' then 'U'
  else if c = 'v' then 'V' else if c = 'w' then 'W' else if c = 'x' then 'X'
  else if c = 'y' then 'Y' else if c = 'z' then 'Z' else c

/-- `str.lower` on one ASCII character. -/
def pyLowerChar (c : Char) : Char :=
  if c = 'A' then 'a' else if c = 'B' then 'b' else if c = 'C' then 'c'
  else if c = 'D' then 'd' else if c = 'E' then 'e' else if c = 'F' then 'f'
  else if c = 'G' then 'g' else if c = 'H' then 'h' else if c = 'I' then 'i'
  else if c = 'J' then 'j' else if c = 'K' then 'k' else if c = 'L' then 'l'
  else if c = 'M' then 'm' else if c = 'N' then 'n' else if c = 'O' then 'o'
  else if c = 'P' then 'p' else if c = 'Q' then 'q' else if c = 'R' then 'r'
  else if c = 'S' then 's' else if c = 'T' then 't' else if c = 'U' then 'u'
  else if c = 'V' then 'v' else if c = 'W' then 'w' else if c = 'X' then 'x'
  else if c = 'Y' then 'y' else if c = 'Z' then 'z' else c

/-- `str.upper`. -/
def pyUpper (s : String) : String := ⟨s.data.map pyUpperChar⟩

/-- `str.lower`. -/
def pyLower (s : String) : String := ⟨s.data.map pyLowerChar⟩

/-- Characters Python's `str.split()` (and `str.strip()`) treat as
whitespace. -/
def isPySpace (c : Char) : Bool :=
  c = ' ' || c = '\t' || c = '\n' || c = '\x0d' || c = '\x0b' || c = '\x0c'

/-- `str.split(sep, maxsplit)` on character lists: split at the first
occurrence of `sep`, at most `maxsplit` times. -/
def pySplitCharLimit (sep : Char) : Nat → List Char → List (List Char)
  | 0, cs => [cs]
  | n + 1, cs =>
    if cs.contains sep then
      cs.takeWhile (· ≠ sep) ::
        pySplitCharLimit sep n ((cs.dropWhile (· ≠ sep)).tail)
    else [cs]

/-- `str.split(sep, maxsplit)`. -/
def pySplitLimit (sep : Char) (maxsplit : Nat) (s : String) : List String :=
  (pySplitCharLimit sep maxsplit s.data).map fun cs => ⟨cs⟩

/-- `str.split()` with no arguments: split on whitespace runs, discarding
empty pieces. -/
def pySplitWhitespace (s : String) : List String :=
  ((s.data.splitOnP isPySpace).filter (· ≠ [])).map fun cs => ⟨cs⟩

/-- `str.strip()` with no arguments. -/
def pyStrip (s : String) : String :=
  ⟨(((s.data.dropWhile isPySpace).reverse.dropWhile isPySpace).reverse)⟩

/-- `str.rstrip('/')`. -/
def pyRstripSlash (s : String) : String :=
  ⟨(s.data.reverse.dropWhile (· = '/')).reverse⟩

/-- `s.startswith(pre)`. -/
def pyStartsWith (s pre : String) : Bool :=
  pre.data.isPrefixOf s.data

/-- `os.path.dirname` (POSIX): everything up to the last `/`, with any
trailing slashes of the head stripped unless the head is all slashes. -/
def pyDirname (s : String) : String :=
  let cs := s.data
  if cs.contains '/' then
    let head := (cs.reverse.dropWhile (· ≠ '/')).reverse
    if head.all (· = '/') then ⟨head⟩
    else ⟨(head.reverse.dropWhile (· = '/')).reverse⟩
  else ""

/-! ## Serial-number formatting -/

/-- The lowercase hexadecimal digits. -/
def lowerHexDigits : List Char := "0123456789abcdef".data

/-- The uppercase hexadecimal digits (with the decimal digits). -/
def upperHexDigits : List Char := "0123456789ABCDEF".data

/-- Hexadecimal digits of either case. -/
def hexDigits : List Char := "0123456789abcdefABCDEF".data

/-- A nonempty string of hexadecimal digits (either case): the domain the
serial-formatter claims quantify over. -/
def isValidHexStr (s : String) : Bool :=
  !s.data.isEmpty && s.data.all (hexDigits.contains ·)

/-- Modelled from the spec: the external serial-number validity rule
(`n6lib.auth_db.validators.is_cert_serial_number_valid`, not part of the
sources) — the domain's serial numbers are nonempty strings of (lowercase)
hexadecimal digits. -/
def is_cert_serial_number_valid (s : String) : Bool :=
  !s.data.isEmpty && s.data.all (lowerHexDigits.contains ·)

/-- The normalization performed by `_format_openssl_serial_number` on a text
input: uppercase, then left-pad with a single `'0'` if the digit count is
odd. -/
def serialNormalized (s : String) : String :=
  let u := pyUpper s
  if u.length % 2 = 1 then ⟨'0' :: u.data⟩ else u

/-- `_format_openssl_serial_number`, on a text argument (the
`isinstance(..., str)` branch has been taken). -/
def _format_openssl_serial_number_str (serial_number : String) : Except PyErr String :=
  let serial_number := pyUpper serial_number
  let serial_number :=
    if serial_number.length % 2 = 1 then ⟨'0' :: serial_number.data⟩ else serial_number
  if is_cert_serial_number_valid (pyLower serial_number) then
    .ok serial_number
  else
    .error .valueError

/-! ## Datetimes

A Python `datetime.datetime` value: calendar fields plus an optional fixed
UTC offset in minutes (`tzOffsetMinutes = none` embeds a naive datetime). -/

structure PyDatetime where
  year : Nat
  month : Nat
  day : Nat
  hour : Nat
  minute : Nat
  second : Nat
  microsecond : Nat
  tzOffsetMinutes : Option Int
  deriving DecidableEq, Repr

/-- Day count since 0000-03-01 of a calendar date (the standard
era/year-of-era civil-calendar conversion; sound for years ≥ 1). -/
def daysFromCivil (y m d : Nat) : Nat :=
  let y' := if m ≤ 2 then y - 1 else y
  let era := y' / 400
  let yoe := y' % 400
  let mp := (m + 9) % 12
  let doy := (153 * mp + 2) / 5 + d - 1
  let doe := yoe * 365 + yoe / 4 - yoe / 100 + doy
  era * 146097 + doe

/-- Calendar date of a day count since 0000-03-01 (inverse of
`daysFromCivil`). -/
def civilFromDays (z : Nat) : Nat × Nat × Nat :=
  let era := z / 146097
  let doe := z % 146097
  let yoe := (doe - doe / 1460 + doe / 36524 - doe / 146096) / 365
  let y := yoe + era * 400
  let doy := doe - (365 * yoe + yoe / 4 - yoe / 100)
  let mp := (5 * doy + 2) / 153
  let d := doy - (153 * mp + 2) / 5 + 1
  let m := if mp < 10 then mp + 3 else mp - 9
  (if m ≤ 2 then y + 1 else y, m, d)

/-- The instant a datetime denotes, in seconds since 0000-03-01T00:00 UTC
(microseconds disregarded): its own clock reading minus its UTC offset; a
naive datetime is taken at face value (as UTC), exactly as
`datetime_utc_normalize` does. -/
def toUTCTotalSeconds (dt : PyDatetime) : Int :=
  (daysFromCivil dt.year dt.month dt.day : Int) * 86400
    + dt.hour * 3600 + dt.minute * 60 + dt.second
    - 60 * (dt.tzOffsetMinutes.getD 0)

/-- Modelled from the spec: `n6lib.datetime_helpers.datetime_utc_normalize`
(not part of the sources) — "normalizes to UTC": a naive datetime is
returned unchanged (it already denotes a UTC instant); an offset-aware one
is converted to the naive UTC datetime denoting the same instant. -/
def datetime_utc_normalize (dt : PyDatetime) : PyDatetime :=
  match dt.tzOffsetMinutes with
  | none => dt
  | some _ =>
    let t := (toUTCTotalSeconds dt).toNat
    let z := t / 86400
    let sod := t % 86400
    let c := civilFromDays z
    { year := c.1, month := c.2.1, day := c.2.2,
      hour := sod / 3600, minute := sod % 3600 / 60, second := sod % 60,
      microsecond := dt.microsecond, tzOffsetMinutes := none }

/-- A field rendered by `strftime` as a zero-padded two-digit decimal
number. -/
def pad2 (n : Nat) : String :=
  ⟨[Nat.digitChar (n / 10 % 10), Nat.digitChar (n % 10)]⟩

/-- `_format_openssl_dt` on a `datetime.datetime` argument (the
`isinstance` check has passed): normalize to UTC, then render with
`strftime("%y%m%d%H%M%SZ")`. -/
def _format_openssl_dt_dt (dt : PyDatetime) : String :=
  let u := datetime_utc_normalize dt
  pad2 (u.year % 100) ++ pad2 u.month ++ pad2 u.day
    ++ pad2 u.hour ++ pad2 u.minute ++ pad2 u.second ++ "Z"

/-! ## Dynamically-typed inputs

The date and serial formatters are reachable with arguments of any Python
type; `PyVal` embeds the relevant fragment of Python's value universe. -/

inductive PyVal where
  | str (s : String)
  | datetime (dt : PyDatetime)
  | pyNone
  | int (n : Int)
  | list (vs : List String)
  deriving DecidableEq, Repr

/-- `_format_openssl_dt`: a `datetime.datetime` instance is required,
anything else raises `TypeError`. -/
def _format_openssl_dt (v : PyVal) : Except PyErr String :=
  match v with
  | .datetime dt => .ok (_format_openssl_dt_dt dt)
  | _ => .error .typeError

/-- `_format_openssl_serial_number`: `unicode` is converted to `str`, any
non-text input raises `TypeError`; then the text branch runs. -/
def _format_openssl_serial_number (v : PyVal) : Except PyErr String :=
  match v with
  | .str s => _format_openssl_serial_number_str s
  | _ => .error .typeError

/-! ## Certificate records and the index codec -/

/-- Python's `datetime > datetime` comparison on naive datetimes:
lexicographic on the calendar fields. -/
def pyDtGtNaive (a b : PyDatetime) : Bool :=
  if a.year ≠ b.year then a.year > b.year
  else if a.month ≠ b.month then a.month > b.month
  else if a.day ≠ b.day then a.day > b.day
  else if a.hour ≠ b.hour then a.hour > b.hour
  else if a.minute ≠ b.minute then a.minute > b.minute
  else if a.second ≠ b.second then a.second > b.second
  else a.microsecond > b.microsecond

/-- A certificate record, as consumed by the index codec (the external
auth-db entity, read-only): serial number, subject distinguished name,
optional expiry timestamp, optional revocation timestamp. -/
structure CertData where
  serial_hex : String
  subject : String
  expires_on : Option PyDatetime
  revoked_on : Option PyDatetime
  certificate : String
  deriving DecidableEq, Repr

/-- The body of `_make_openssl_index_file_content`'s loop for one record.
`now` embeds the value of `datetime.datetime.utcnow()` at the time of the
call. -/
def indexLine (now : PyDatetime) (cert_data : CertData) : Except PyErr String := do
  let entry_type := "V"
  let entry_type :=
    match cert_data.expires_on with
    | some e => if pyDtGtNaive now e then "E" else entry_type
    | none => entry_type
  let expires_openssl :=
    match cert_data.expires_on with
    | some e => _format_openssl_dt_dt e
    | none => ""
  let entry_type := if cert_data.revoked_on.isSome then "R" else entry_type
  let revoked_openssl :=
    match cert_data.revoked_on with
    | some r => _format_openssl_dt_dt r
    | none => ""
  let serial_openssl ← _format_openssl_serial_number_str cert_data.serial_hex
  pure (entry_type ++ "\t" ++ expires_openssl ++ "\t" ++ revoked_openssl
    ++ "\t" ++ serial_openssl ++ "\t" ++ "unknown" ++ "\t"
    ++ cert_data.subject ++ "\n")

/-- `_make_openssl_index_file_content`: one line per record, joined in input
order. -/
def _make_openssl_index_file_content (now : PyDatetime) :
    List CertData → Except PyErr String
  | [] => .ok ""
  | c :: cs => do
    let line ← indexLine now c
    let rest ← _make_openssl_index_file_content now cs
    pure (line ++ rest)

/-- The status flag as the claim words it: `R` whenever the revocation
timestamp is set (regardless of expiry), `E` when there is a past expiry
and no revocation, `V` otherwise. -/
def statusFlagSpec (now : PyDatetime) (c : CertData) : String :=
  if c.revoked_on.isSome then "R"
  else if (match c.expires_on with
           | some e => pyDtGtNaive now e
           | none => false) then "E"
  else "V"

/-- One index line as the claim words it: six tab-separated fields — status
flag, formatted expiry timestamp or empty, formatted revocation timestamp
or empty, normalized serial number, the constant token `unknown`, subject
name — with a terminating newline. -/
def indexLineSpec (now : PyDatetime) (c : CertData) : String :=
  statusFlagSpec now c ++ "\t"
    ++ (match c.expires_on with
        | some e => _format_openssl_dt_dt e
        | none => "") ++ "\t"
    ++ (match c.revoked_on with
        | some r => _format_openssl_dt_dt r
        | none => "") ++ "\t"
    ++ serialNormalized c.serial_hex ++ "\t"
    ++ "unknown" ++ "\t"
    ++ c.subject ++ "\n"

/-! ## Config documents

Modelled from the spec: the package's generic key=value
configuration-document capability (`n6lib.config.ConfigString`, not part of
the sources).  Per the spec's design notes it is modelled as a parsed
line-oriented structure — a list of section headers and option lines —
with four primitives: get-value-at-path, set-value-at-path,
insert-section-before, delete-key-at-path, where a path is
`section.key`. -/

inductive ConfigItem where
  | secHeader (name : String)
  | optLine (key value : String)
  deriving DecidableEq, Repr

abbrev ConfigDoc := List ConfigItem

/-- Modelled from the spec: parsing one line of a key=value configuration
document.  A line is blank, a comment, a `[section]` header, or
`key = value`; anything else is a parse error (reported with the offending
line). -/
def parseConfigLine (line : String) : Except String (Option ConfigItem) :=
  let t := pyStrip line
  if t.data.isEmpty then .ok none
  else if t.data.head? = some '#' then .ok none
  else if t.data.head? = some '[' then
    if t.data.getLast? = some ']' then
      .ok (some (.secHeader (pyStrip ⟨(t.data.drop 1).dropLast⟩)))
    else .error line
  else if t.data.contains '=' then
    .ok (some (.optLine (pyStrip ⟨t.data.takeWhile (· ≠ '=')⟩)
                        (pyStrip ⟨(t.data.dropWhile (· ≠ '=')).tail⟩)))
  else .error line

/-- Modelled from the spec: parsing a whole configuration text (the
`ConfigString` constructor; a malformed text raises `ValueError`). -/
def parseConfigText (text : String) : Except String ConfigDoc := do
  let lines := (text.data.splitOnP (· = '\n')).map fun cs => (⟨cs⟩ : String)
  let items ← lines.mapM parseConfigLine
  pure (items.filterMap id)

/-- The option lines at the head of a section body (everything up to the
next section header). -/
def optsOf : ConfigDoc → List (String × String)
  | [] => []
  | .secHeader _ :: _ => []
  | .optLine k v :: rest => (k, v) :: optsOf rest

/-- The items following the first `[sect]` header. -/
def sectionBody : ConfigDoc → String → Option ConfigDoc
  | [], _ => none
  | .secHeader n :: rest, s => if n = s then some rest else sectionBody rest s
  | .optLine _ _ :: rest, s => sectionBody rest s

/-- Modelled from the spec: `ConfigString.get_opt_value` for a `sect.key`
path — the value of `key` among the option lines of the first `[sect]`
section. -/
def getOpt (doc : ConfigDoc) (sect key : String) : Option String :=
  (sectionBody doc sect).bind fun body => (optsOf body).lookup key

/-- The option lines of the first `[sect]` section. -/
def sectOpts (doc : ConfigDoc) (sect : String) : List (String × String) :=
  match sectionBody doc sect with
  | some body => optsOf body
  | none => []

/-- Replace the value of the first `key` line within one section body;
`none` when the section has no such option. -/
def substBody (key newValue : String) : ConfigDoc → Option ConfigDoc
  | [] => none
  | .secHeader _ :: _ => none
  | .optLine k v :: rest =>
    if k = key then some (.optLine k newValue :: rest)
    else (substBody key newValue rest).map (.optLine k v :: ·)

/-- Replace `sect.key`'s value in the whole document. -/
def substDoc (sect key newValue : String) : ConfigDoc → Option ConfigDoc
  | [] => none
  | .secHeader n :: rest =>
    if n = sect then (substBody key newValue rest).map (.secHeader n :: ·)
    else (substDoc sect key newValue rest).map (.secHeader n :: ·)
  | .optLine k v :: rest => (substDoc sect key newValue rest).map (.optLine k v :: ·)

/-- Modelled from the spec: `ConfigString.substitute` on path `sect.key`
(set-value-at-path), replacing the option line with `key = newValue`; an
absent path is an error. -/
def substOpt (doc : ConfigDoc) (sect key newValue : String) : Except PyErr ConfigDoc :=
  match substDoc sect key newValue doc with
  | some doc' => .ok doc'
  | none => .error (.keyError (sect ++ "." ++ key))

/-- Delete the first `key` line within one section body; `none` when the
section has no such option. -/
def removeBody (key : String) : ConfigDoc → Option ConfigDoc
  | [] => none
  | .secHeader _ :: _ => none
  | .optLine k v :: rest =>
    if k = key then some rest
    else (removeBody key rest).map (.optLine k v :: ·)

/-- Delete `sect.key` in the whole document. -/
def removeDoc (sect key : String) : ConfigDoc → Option ConfigDoc
  | [] => none
  | .secHeader n :: rest =>
    if n = sect then (removeBody key rest).map (.secHeader n :: ·)
    else (removeDoc sect key rest).map (.secHeader n :: ·)
  | .optLine k v :: rest => (removeDoc sect key rest).map (.optLine k v :: ·)

/-- Modelled from the spec: `ConfigString.remove` on path `sect.key`
(delete-key-at-path); an absent path is an error. -/
def removeOpt (doc : ConfigDoc) (sect key : String) : Except PyErr ConfigDoc :=
  match removeDoc sect key doc with
  | some doc' => .ok doc'
  | none => .error (.keyError (sect ++ "." ++ key))

/-- Splice a block of items immediately above the first `[sect]` header. -/
def insertAboveDoc (sect : String) (block : ConfigDoc) : ConfigDoc → Option ConfigDoc
  | [] => none
  | .secHeader n :: rest =>
    if n = sect then some (block ++ .secHeader n :: rest)
    else (insertAboveDoc sect block rest).map (.secHeader n :: ·)
  | .optLine k v :: rest => (insertAboveDoc sect block rest).map (.optLine k v :: ·)

/-- Modelled from the spec: `ConfigString.insert_above`, splicing a block of
items immediately above the first `[sect]` header; an absent section is an
error. -/
def insertAbove (doc : ConfigDoc) (sect : String) (block : ConfigDoc) :
    Except PyErr ConfigDoc :=
  match insertAboveDoc sect block doc with
  | some doc' => .ok doc'
  | none => .error (.keyError sect)

/-- Whether the document has a `[s]` section header. -/
def hdrIn : ConfigDoc → String → Bool
  | [], _ => false
  | .secHeader n :: rest, s => n = s || hdrIn rest s
  | .optLine _ _ :: rest, s => hdrIn rest s

/-- The block of items `block` sits immediately above the first `[sect]`
header position in `doc`: the claim's "inserts the engine stanza
immediately above the CA section". -/
def stanzaImmediatelyAbove (doc block : ConfigDoc) (sect : String) : Prop :=
  ∃ pre post, doc = pre ++ block ++ ConfigItem.secHeader sect :: post

/-- Executable form of `stanzaImmediatelyAbove`: scan every split point. -/
def stanzaImmediatelyAboveB (doc block : ConfigDoc) (sect : String) : Bool :=
  (List.range (doc.length + 1)).any fun i =>
    (block ++ [ConfigItem.secHeader sect]).isPrefixOf (doc.drop i)

/-- Render a config document back to text (one line per item). -/
def renderConfigDoc (doc : ConfigDoc) : String :=
  String.intercalate "\n"
    (doc.map fun i => match i with
      | .secHeader n => "[" ++ n ++ "]"
      | .optLine k v => k ++ " = " ++ v)

/-! ## The hardware-engine (PKCS#11) descriptor and its config stanza -/

/-- The hardware-engine descriptor built by `get_ca_env_configuration` for a
`pkcs11:` key locator (`pkcs11_opts_dict`). -/
structure Pkcs11OptsDict where
  pkcs11_dynamic_path : String
  pkcs11_module_path : String
  pkcs11_additional_openssl_cmd_arg_list : List String
  deriving DecidableEq, Repr

/-- `PKCS11_OPTS_PATTERN` with its two fields substituted, as a parsed
config block. -/
def pkcs11OptsItems (d : Pkcs11OptsDict) : ConfigDoc :=
  [.optLine "openssl_conf" "openssl_def",
   .secHeader "openssl_def",
   .optLine "engines" "engine_section",
   .secHeader "engine_section",
   .optLine "pkcs11" "pkcs11_section",
   .secHeader "pkcs11_section",
   .optLine "engine_id" "pkcs11",
   .optLine "dynamic_path" d.pkcs11_dynamic_path,
   .optLine "MODULE_PATH" d.pkcs11_module_path,
   .optLine "init" "0"]

/-! ## Filesystem model

A flat association list from absolute path strings to entries.  `os.path`
functions ignore a trailing slash when testing a directory, so `isDir`
normalizes it away. -/

inductive FSEntry where
  | dir
  | file (content : String)
  deriving DecidableEq, Repr

abbrev FS := List (String × FSEntry)

def FS.lookup (fs : FS) (p : String) : Option FSEntry :=
  (fs.find? (fun kv => kv.1 = p)).map (·.2)

def FS.set (fs : FS) (p : String) (e : FSEntry) : FS :=
  (p, e) :: fs.filter (fun kv => kv.1 ≠ p)

/-- `os.path.exists`. -/
def FS.exists (fs : FS) (p : String) : Bool :=
  (fs.lookup (pyRstripSlash p)).isSome

/-- `os.path.isdir`. -/
def FS.isDir (fs : FS) (p : String) : Bool :=
  fs.lookup (pyRstripSlash p) = some .dir

/-- Whether `p` lies inside the tree rooted at `root` (the root itself
included): the scope of `shutil.rmtree(root)`. -/
def underRoot (root p : String) : Bool :=
  p == root || pyStartsWith p (root ++ "/")

/-- `shutil.rmtree(root)`: delete the whole directory tree at `root`. -/
def FS.removeTree (fs : FS) (root : String) : FS :=
  fs.filter (fun kv => !underRoot root kv.1)

/-! ## `DirectoryStructure` (one sandbox node) -/

/-- The `opts` passed to the `openssl.cnf` node: the optional hardware
engine descriptor and the mapping of config option name to sandbox-local
path. -/
structure NodeOpts where
  pkcs11_opts_dict : Option Pkcs11OptsDict
  paths_to_substitute : List (String × String)
  deriving DecidableEq, Repr

/-- What a node's `_value` attribute holds once set: plain text for
ordinary nodes, the adapted config document for the `openssl.cnf` node. -/
inductive NodeValue where
  | str (s : String)
  | cfg (doc : ConfigDoc)
  deriving DecidableEq, Repr

/-- The text written to the node's file. -/
def NodeValue.render : NodeValue → String
  | .str s => s
  | .cfg doc => renderConfigDoc doc

/-- The directory structure for a TmpEnv's component. -/
structure DirectoryStructure where
  name : String
  relative_pth : String
  pathBase : String
  nodeValue : Option NodeValue
  opts : Option NodeOpts
  deriving DecidableEq, Repr

/-- The node's computed absolute path (`self._path + self.relative_pth +
self.name`). -/
def DirectoryStructure.path (ds : DirectoryStructure) : String :=
  ds.pathBase ++ ds.relative_pth ++ ds.name

/-- The `DirectoryStructure` constructor: record the attributes
(`self._path` is the root with a trailing slash forced) and materialize the
parent directory if it does not exist yet. -/
def DirectoryStructure.mkNode (name rel_pth path : String) (opts : Option NodeOpts)
    (fs : FS) : DirectoryStructure × FS :=
  let ds : DirectoryStructure :=
    { name := name, relative_pth := rel_pth,
      pathBase := pyRstripSlash path ++ "/", nodeValue := none, opts := opts }
  let dir_path := pyDirname ds.path
  (ds, if fs.exists dir_path then fs else fs.set dir_path .dir)

/-- `DirectoryStructure._substitute_path`: rewrite `sect.opt_name` to the
line `opt_name = tmp_path` (`ca_opt_pattern` is the active CA section
name). -/
def DirectoryStructure.substitutePath (caSect : String) (value : ConfigDoc)
    (opt_name tmp_path : String) : Except PyErr ConfigDoc :=
  substOpt value caSect opt_name tmp_path

/-- `DirectoryStructure._get_openssl_config_with_substituted_paths`:
substitute `dir` to the sandbox root, then every option of the
`paths_to_substitute` mapping to its sandbox-local path. -/
def DirectoryStructure.substitutedPaths (ds : DirectoryStructure) (caSect : String)
    (value : ConfigDoc) : Except PyErr ConfigDoc := do
  let value ← DirectoryStructure.substitutePath caSect value "dir" (pyDirname ds.path)
  let paths_mapping := (ds.opts.map (·.paths_to_substitute)).getD []
  paths_mapping.foldlM
    (fun v kv => DirectoryStructure.substitutePath caSect v kv.1 kv.2) value

/-- `DirectoryStructure._get_adjusted_openssl_config_str`: parse (wrapping a
parse failure in `InvalidSSLConfigError`), resolve the active CA section
from `ca.default_ca`, substitute the sandbox paths, and, when a hardware
engine descriptor is present, insert the engine stanza above the `ca`
section and remove the active CA section's `private_key` option. -/
def DirectoryStructure.getAdjustedOpensslConfig (ds : DirectoryStructure)
    (text : String) : Except PyErr ConfigDoc := do
  let value ← match parseConfigText text with
    | .ok v => pure v
    | .error e => throw (.invalidSSLConfig e)
  let caSect ← match getOpt value "ca" "default_ca" with
    | some s => pure s
    | none => throw (.keyError "ca.default_ca")
  let value ← ds.substitutedPaths caSect value
  match (ds.opts.map (·.pkcs11_opts_dict)).getD none with
  | some d => do
    let value ← insertAbove value "ca" (pkcs11OptsItems d)
    removeOpt value caSect "private_key"
  | none => pure value

/-- The `value` setter: route the `openssl.cnf` node through the config
adapter, record the value in memory, then `_create_file` — which writes the
file only when the node's path is not an existing directory.  `inject`
models an operating-system failure of the file write itself (`none`: the
write succeeds). -/
def DirectoryStructure.setValue (ds : DirectoryStructure) (fs : FS) (v : String)
    (inject : Option PyErr) : Except PyErr (DirectoryStructure × FS) := do
  let nv ←
    if ds.name = "openssl.cnf" then
      NodeValue.cfg <$> ds.getAdjustedOpensslConfig v
    else
      pure (NodeValue.str v)
  let ds' := { ds with nodeValue := some nv }
  if fs.isDir ds'.path then
    pure (ds', fs)
  else
    match inject with
    | some e => throw e
    | none => pure (ds', fs.set ds'.path (.file nv.render))

/-! ## `TmpEnv` (the sandbox) -/

/-- The temporary environment for OpenSSL CA operations: the fixed named
set of sandbox nodes. -/
structure TmpEnvObj where
  pkcs11_opts_dict : Option Pkcs11OptsDict
  tmp_path_templ : String
  ca_cert : DirectoryStructure
  ca_key : DirectoryStructure
  certs_dir : DirectoryStructure
  csr : DirectoryStructure
  index : DirectoryStructure
  index_attr : DirectoryStructure
  revoke_cert : DirectoryStructure
  ca_crl : DirectoryStructure
  serial : DirectoryStructure
  gen_cert : DirectoryStructure
  ssl_conf : DirectoryStructure
  deriving DecidableEq, Repr

/-- `getattr(self, name)` for the node attributes. -/
def TmpEnvObj.getNode (env : TmpEnvObj) (name : String) : Option DirectoryStructure :=
  if name = "ca_cert" then some env.ca_cert
  else if name = "ca_key" then some env.ca_key
  else if name = "certs_dir" then some env.certs_dir
  else if name = "csr" then some env.csr
  else if name = "index" then some env.index
  else if name = "index_attr" then some env.index_attr
  else if name = "revoke_cert" then some env.revoke_cert
  else if name = "ca_crl" then some env.ca_crl
  else if name = "serial" then some env.serial
  else if name = "gen_cert" then some env.gen_cert
  else if name = "ssl_conf" then some env.ssl_conf
  else none

/-- Store a node back under its attribute name. -/
def TmpEnvObj.putNode (env : TmpEnvObj) (name : String) (ds : DirectoryStructure) :
    TmpEnvObj :=
  if name = "ca_cert" then { env with ca_cert := ds }
  else if name = "ca_key" then { env with ca_key := ds }
  else if name = "certs_dir" then { env with certs_dir := ds }
  else if name = "csr" then { env with csr := ds }
  else if name = "index" then { env with index := ds }
  else if name = "index_attr" then { env with index_attr := ds }
  else if name = "revoke_cert" then { env with revoke_cert := ds }
  else if name = "ca_crl" then { env with ca_crl := ds }
  else if name = "serial" then { env with serial := ds }
  else if name = "gen_cert" then { env with gen_cert := ds }
  else if name = "ssl_conf" then { env with ssl_conf := ds }
  else env

/-- `TmpEnv._prepare_dir_structures`: define the fixed node set with its
relative layout, then give the `openssl.cnf` node the path-substitution
mapping (`_get_paths_to_substitute_dict`) and the engine descriptor. -/
def prepareDirStructures (pkcs11_opts_dict : Option Pkcs11OptsDict)
    (path : String) (fs : FS) : TmpEnvObj × FS :=
  let (ca_cert, fs) := DirectoryStructure.mkNode "cacert.pem" "" path none fs
  let (ca_key, fs) := DirectoryStructure.mkNode "cakey.pem" "private/" path none fs
  let (certs_dir, fs) := DirectoryStructure.mkNode "" "certs/" path none fs
  let (csr, fs) := DirectoryStructure.mkNode "client.csr" "csr/" path none fs
  let (index, fs) := DirectoryStructure.mkNode "index.txt" "" path none fs
  let (index_attr, fs) := DirectoryStructure.mkNode "index.txt.attr" "" path none fs
  let (revoke_cert, fs) := DirectoryStructure.mkNode "revoke_cert.pem" "" path none fs
  let (ca_crl, fs) := DirectoryStructure.mkNode "ca.crl" "" path none fs
  let (serial, fs) := DirectoryStructure.mkNode "serial" "" path none fs
  let (gen_cert, fs) := DirectoryStructure.mkNode "cert.pem" certs_dir.relative_pth path none fs
  let paths_to_substitute :=
    [("certificate", ca_cert.path),
     ("private_key", ca_key.path),
     ("new_certs_dir", certs_dir.path),
     ("database", index.path),
     ("serial", serial.path)]
  let (ssl_conf, fs) := DirectoryStructure.mkNode "openssl.cnf" "" path
    (some { pkcs11_opts_dict := pkcs11_opts_dict,
            paths_to_substitute := paths_to_substitute }) fs
  ({ pkcs11_opts_dict := pkcs11_opts_dict, tmp_path_templ := path,
     ca_cert := ca_cert, ca_key := ca_key, certs_dir := certs_dir, csr := csr,
     index := index, index_attr := index_attr, revoke_cert := revoke_cert,
     ca_crl := ca_crl, serial := serial, gen_cert := gen_cert,
     ssl_conf := ssl_conf }, fs)

/-- Sort the init keyword arguments by name (`sorted(init_values.iteritems())`). -/
def sortByKey : List (String × String) → List (String × String)
  | [] => []
  | kv :: rest =>
    let sorted := sortByKey rest
    let rec insert (x : String × String) : List (String × String) → List (String × String)
      | [] => [x]
      | y :: ys => if decide (x.1 ≤ y.1) then x :: y :: ys else y :: insert x ys
    insert kv sorted

/-- The init-value write loop of `TmpEnv.__init__`: for each `(name,
value)` pair in sorted order, look the node attribute up (`getattr`) and
run its `value` setter.  On failure the filesystem reached so far is
returned alongside the error.  `writeInject` models operating-system
failures of individual file writes (keyed by node name). -/
def writeInitValues (writeInject : String → Option PyErr) :
    TmpEnvObj → FS → List (String × String) → Except PyErr TmpEnvObj × FS
  | env, fs, [] => (.ok env, fs)
  | env, fs, (name, v) :: rest =>
    match env.getNode name with
    | none => (.error (.attributeError name), fs)
    | some ds =>
      match ds.setValue fs v (writeInject name) with
      | .error e => (.error e, fs)
      | .ok (ds', fs') => writeInitValues writeInject (env.putNode name ds') fs' rest

/-- `TmpEnv.__init__`: create the fresh sandbox directory (`mkdtemp`,
embedded as the caller-supplied fresh path `root`), prepare the node set,
and write every init value in sorted order; if anything raises, run
`_cleanup` (recursive deletion of the sandbox tree) and re-raise the
original error. -/
def tmpEnvInit (writeInject : String → Option PyErr)
    (pkcs11_opts_dict : Option Pkcs11OptsDict)
    (init_values : List (String × String)) (root : String) (fs0 : FS) :
    Except PyErr TmpEnvObj × FS :=
  let fs1 := fs0.set root .dir
  let (env0, fs2) := prepareDirStructures pkcs11_opts_dict root fs1
  match writeInitValues writeInject env0 fs2 (sortByKey init_values) with
  | (.ok env, fs3) => (.ok env, fs3)
  | (.error e, fs3) => (.error e, fs3.removeTree root)

/-- `with TmpEnv(...) as tmp_env: body` — scoped-resource semantics: on a
successful construction the body runs (it may itself end in an error), and
`__exit__` (recursive deletion of the sandbox tree) runs on every
control-flow exit; a failed construction has already torn the sandbox
down. -/
def withTmpEnv {α : Type} (writeInject : String → Option PyErr)
    (pkcs11_opts_dict : Option Pkcs11OptsDict)
    (init_values : List (String × String)) (root : String) (fs0 : FS)
    (body : TmpEnvObj → FS → Except PyErr α × FS) : Except PyErr α × FS :=
  match tmpEnvInit writeInject pkcs11_opts_dict init_values root fs0 with
  | (.error e, fs) => (.error e, fs)
  | (.ok env, fs1) =>
    let r := body env fs1
    (r.1, r.2.removeTree root)

/-! ## Toolchain invocation -/

/-- The outcome of one external toolchain process: its exit status and its
captured combined output (stdout and stderr, `stderr=subprocess.STDOUT`). -/
structure ProcOutcome where
  exitCode : Nat
  output : String
  deriving DecidableEq, Repr

/-- The external `openssl` toolchain as an oracle: a command line and a
filesystem yield a process outcome and the filesystem the process leaves
behind. -/
def Toolchain : Type := List String → FS → ProcOutcome × FS

/-- `read_file` (from `n6lib.common_helpers`, trivially modelled): the
content of the file at `path`. -/
def read_file (fs : FS) (path : String) : Except PyErr String :=
  match fs.lookup path with
  | some (.file c) => .ok c
  | _ => .error (.ioError path)

/-- `TmpEnv._execute_command`: run the command; `subprocess.check_output`
raises `CalledProcessError` exactly when the exit status is non-zero, which
is mapped to the `RuntimeError('CA env error (...)')` carrying the captured
output. -/
def executeCommand (run : Toolchain) (cmd_args : List String) (fs : FS) :
    Except PyErr FS :=
  let r := run cmd_args fs
  if r.1.exitCode = 0 then .ok r.2
  else .error (.runtimeCAEnv r.1.output)

/-- `TmpEnv._get_pkcs11_openssl_command_args`: empty without a descriptor;
with one, select the engine, append the descriptor's extra tokens, and name
the active CA section read back from the adapted config document. -/
def getPkcs11OpensslCommandArgs (env : TmpEnvObj) : Except PyErr (List String) :=
  match env.pkcs11_opts_dict with
  | none => .ok []
  | some d =>
    match env.ssl_conf.nodeValue with
    | some (.cfg doc) =>
      match getOpt doc "ca" "default_ca" with
      | some ca_sect_name =>
        .ok (["-engine", "pkcs11"]
          ++ d.pkcs11_additional_openssl_cmd_arg_list
          ++ ["-name", ca_sect_name])
      | none => .error (.keyError "ca.default_ca")
    | _ => .error (.attributeError "get_opt_value")

/-- `TmpEnv.execute_cert_generation`: invoke the CA-sign function and read
the generated certificate back out of the output node's file. -/
def executeCertGeneration (env : TmpEnvObj) (run : Toolchain)
    (additional_openssl_command_args : List String) (fs : FS) :
    Except PyErr (String × FS) := do
  let pkcs11Args ← getPkcs11OpensslCommandArgs env
  let fs' ← executeCommand run
    (["openssl", "ca",
      "-config", env.ssl_conf.path,
      "-notext",
      "-in", env.csr.path,
      "-out", env.gen_cert.path,
      "-batch"]
      ++ pkcs11Args ++ additional_openssl_command_args) fs
  let pem ← read_file fs' env.gen_cert.path
  pure (pem, fs')

/-- `TmpEnv.execute_cert_revocation`: invoke the revoke function; nothing is
read back. -/
def executeCertRevocation (env : TmpEnvObj) (run : Toolchain) (fs : FS) :
    Except PyErr FS := do
  let pkcs11Args ← getPkcs11OpensslCommandArgs env
  executeCommand run
    (["openssl", "ca",
      "-config", env.ssl_conf.path,
      "-revoke", env.revoke_cert.path,
      "-batch"] ++ pkcs11Args) fs

/-- `TmpEnv.execute_crl_generation`: invoke the CRL-generation function and
read the CRL back out of the CRL node's file. -/
def executeCrlGeneration (env : TmpEnvObj) (run : Toolchain) (fs : FS) :
    Except PyErr (String × FS) := do
  let pkcs11Args ← getPkcs11OpensslCommandArgs env
  let fs' ← executeCommand run
    (["openssl", "ca",
      "-config", env.ssl_conf.path,
      "-gencrl",
      "-out", env.ca_crl.path,
      "-batch"] ++ pkcs11Args) fs
  let pem ← read_file fs' env.ca_crl.path
  pure (pem, fs')

/-! ## The CA environment configuration builder -/

/-- The CA entity (external, consumed read-only). -/
structure CA where
  ssl_config : String
  certificate : String
  profile : String
  all_certificates : List CertData
  deriving DecidableEq, Repr

/-- `DEFAULT_INDEX_ATTR_CONTENT`. -/
def DEFAULT_INDEX_ATTR_CONTENT : String := "unique_subject = no"

/-- `SERVER_COMPONENT_ADDITIONAL_OPENSSL_COMMAND_ARGS`. -/
def SERVER_COMPONENT_ADDITIONAL_OPENSSL_COMMAND_ARGS : List String :=
  ["-policy", "server_component_serviceCA_policy"]

/-- The `tmp_env_init_kwargs_base` mapping assembled by
`get_ca_env_configuration`: either raw key bytes (`ca_key`) or a hardware
engine descriptor (`pkcs11_opts_dict`). -/
structure TmpEnvInitKwargsBase where
  ssl_conf : String
  index_attr : String
  ca_cert : String
  pkcs11_opts_dict : Option Pkcs11OptsDict
  ca_key : Option String
  deriving DecidableEq, Repr

/-- The per-CA environment-configuration bundle. -/
structure CaEnvConfiguration where
  ca : CA
  tmp_env_init_kwargs_base : TmpEnvInitKwargsBase
  deriving DecidableEq, Repr

/-- `get_ca_env_configuration`: decide between a `pkcs11:` locator (build
the descriptor, splitting the extra-argument string on whitespace) and a
key file path (read the key material through `readKeyFile`, which embeds
`read_file` on the real filesystem).  Unpacking a `pkcs11:` locator with
too few colon-separated parts raises `ValueError`, as Python tuple
unpacking does. -/
def get_ca_env_configuration (readKeyFile : String → Except PyErr String)
    (ca : CA) (ca_key_path : String) : Except PyErr CaEnvConfiguration := do
  let base : TmpEnvInitKwargsBase :=
    { ssl_conf := ca.ssl_config,
      index_attr := DEFAULT_INDEX_ATTR_CONTENT,
      ca_cert := ca.certificate,
      pkcs11_opts_dict := none,
      ca_key := none }
  if pyStartsWith ca_key_path "pkcs11:" then
    match pySplitLimit ':' 3 ca_key_path with
    | [_, pkcs11_dynamic_path, pkcs11_module_path, pkcs11_additional_openssl_cmd_args] =>
      let d : Pkcs11OptsDict :=
        { pkcs11_dynamic_path := pkcs11_dynamic_path,
          pkcs11_module_path := pkcs11_module_path,
          pkcs11_additional_openssl_cmd_arg_list :=
            pySplitWhitespace pkcs11_additional_openssl_cmd_args }
      pure { ca := ca,
             tmp_env_init_kwargs_base := { base with pkcs11_opts_dict := some d } }
    | _ => throw .valueError
  else do
    let key ← readKeyFile ca_key_path
    pure { ca := ca,
           tmp_env_init_kwargs_base := { base with ca_key := some key } }

/-- Whether a `PyVal` is a `datetime.datetime` instance. -/
def PyVal.isDatetime : PyVal → Bool
  | .datetime _ => true
  | _ => false

/-- Whether a `PyVal` is a text (`str`/`unicode`) value. -/
def PyVal.isStr : PyVal → Bool
  | .str _ => true
  | _ => false

/-! ## A concrete adaptation scenario

A typical CA configuration whose active CA section (`CA_default`, resolved
from `ca.default_ca`) is distinct from the top-level `[ca]` section, and the
`openssl.cnf` node of a sandbox prepared with a hardware-engine
descriptor. -/

def examplePkcs11Opts : Pkcs11OptsDict :=
  { pkcs11_dynamic_path := "/usr/lib/engines/engine_pkcs11.so",
    pkcs11_module_path := "/usr/lib/opensc-pkcs11.so",
    pkcs11_additional_openssl_cmd_arg_list := ["-keyfile", "key1"] }

def exampleSslConfNode : DirectoryStructure :=
  (prepareDirStructures (some examplePkcs11Opts) "/tmp/t" [("/tmp/t", .dir)]).1.ssl_conf

def exampleSSLConfigText : String :=
  "[ca]\ndefault_ca = CA_default\n[CA_default]\ndir = /orig\ncertificate = /orig/cacert.pem\nprivate_key = /orig/private/cakey.pem\nnew_certs_dir = /orig/certs\ndatabase = /orig/index.txt\nserial = /orig/serial\n"

/-- `exampleSSLConfigText`, parsed. -/
def exampleParsedDoc : ConfigDoc :=
  [.secHeader "ca",
   .optLine "default_ca" "CA_default",
   .secHeader "CA_default",
   .optLine "dir" "/orig",
   .optLine "certificate" "/orig/cacert.pem",
   .optLine "private_key" "/orig/private/cakey.pem",
   .optLine "new_certs_dir" "/orig/certs",
   .optLine "database" "/orig/index.txt",
   .optLine "serial" "/orig/serial"]

/-- The adapter's output on `exampleSSLConfigText` with the descriptor: the
engine stanza lands immediately above `[ca]`, and `private_key` is removed
from `[CA_default]`. -/
def exampleAdjustedDoc : ConfigDoc :=
  [.optLine "openssl_conf" "openssl_def",
   .secHeader "openssl_def",
   .optLine "engines" "engine_section",
   .secHeader "engine_section",
   .optLine "pkcs11" "pkcs11_section",
   .secHeader "pkcs11_section",
   .optLine "engine_id" "pkcs11",
   .optLine "dynamic_path" "/usr/lib/engines/engine_pkcs11.so",
   .optLine "MODULE_PATH" "/usr/lib/opensc-pkcs11.so",
   .optLine "init" "0",
   .secHeader "ca",
   .optLine "default_ca" "CA_default",
   .secHeader "CA_default",
   .optLine "dir" "/tmp/t",
   .optLine "certificate" "/tmp/t/cacert.pem",
   .optLine "new_certs_dir" "/tmp/t/certs/",
   .optLine "database" "/tmp/t/index.txt",
   .optLine "serial" "/tmp/t/serial"]

/-! # Supporting lemmas -/

section Lemmas

lemma mem_upper_of_mem_hex : ∀ c ∈ hexDigits, pyUpperChar c ∈ upperHexDigits := by
  decide

lemma pyUpperChar_fix_of_mem_upper : ∀ c ∈ upperHexDigits, pyUpperChar c = c := by
  decide

lemma mem_lower_of_mem_upper : ∀ c ∈ upperHexDigits, pyLowerChar c ∈ lowerHexDigits := by
  decide

lemma map_id_of_mem {l : List Char} {f : Char → Char} (h : ∀ c ∈ l, f c = c) :
    l.map f = l := by
  induction l with
  | nil => rfl
  | cons a t ih =>
    simp only [List.map_cons, h a (by simp), List.cons.injEq, true_and]
    exact ih fun c hc => h c (List.mem_cons_of_mem _ hc)

lemma string_mk_data (s : String) : (⟨s.data⟩ : String) = s := by
  cases s
  rfl

lemma length_data (s : String) : s.length = s.data.length := rfl

lemma pyUpper_data (s : String) : (pyUpper s).data = s.data.map pyUpperChar := rfl

lemma pyLower_data (s : String) : (pyLower s).data = s.data.map pyLowerChar := rfl

lemma serialNormalized_data (s : String) :
    (serialNormalized s).data =
      if s.data.length % 2 = 1 then '0' :: s.data.map pyUpperChar
      else s.data.map pyUpperChar := by
  simp only [serialNormalized]
  have h : (pyUpper s).length = s.data.length := by
    rw [length_data, pyUpper_data, List.length_map]
  rw [h]
  split <;> rfl

/-- Evaluating the serial formatter on text: normalize, then gate on the
validity re-check. -/
lemma serial_format_eval (s : String) :
    _format_openssl_serial_number_str s =
      if is_cert_serial_number_valid (pyLower (serialNormalized s))
      then .ok (serialNormalized s)
      else .error .valueError := by
  simp only [_format_openssl_serial_number_str, serialNormalized]

lemma hex_of_valid {s : String} (h : isValidHexStr s = true) :
    s.data ≠ [] ∧ ∀ c ∈ s.data, c ∈ hexDigits := by
  simp only [isValidHexStr, Bool.and_eq_true, Bool.not_eq_true',
    List.isEmpty_eq_false, List.all_eq_true] at h
  exact ⟨h.1, fun c hc => by simpa using h.2 c hc⟩

lemma serialNormalized_mem {s : String} (h : isValidHexStr s = true) :
    ∀ c ∈ (serialNormalized s).data, c ∈ upperHexDigits := by
  obtain ⟨-, hall⟩ := hex_of_valid h
  intro c hc
  rw [serialNormalized_data] at hc
  have hmap : c ∈ s.data.map pyUpperChar → c ∈ upperHexDigits := by
    intro hm
    obtain ⟨a, ha, rfl⟩ := List.mem_map.mp hm
    exact mem_upper_of_mem_hex a (hall a ha)
  split at hc
  · rcases List.mem_cons.mp hc with rfl | hc
    · decide
    · exact hmap hc
  · exact hmap hc

lemma serialNormalized_ne {s : String} (h : isValidHexStr s = true) :
    (serialNormalized s).data ≠ [] := by
  obtain ⟨hne, -⟩ := hex_of_valid h
  rw [serialNormalized_data]
  split <;> simp_all

lemma serialNormalized_even {s : String} (h : isValidHexStr s = true) :
    (serialNormalized s).length % 2 = 0 := by
  rw [length_data, serialNormalized_data]
  split <;> simp_all <;> omega

lemma serialNormalized_valid {s : String} (h : isValidHexStr s = true) :
    is_cert_serial_number_valid (pyLower (serialNormalized s)) = true := by
  simp only [is_cert_serial_number_valid, Bool.and_eq_true, Bool.not_eq_true',
    List.isEmpty_eq_false, List.all_eq_true, pyLower_data]
  constructor
  · simpa using serialNormalized_ne h
  · intro c hc
    obtain ⟨a, ha, rfl⟩ := List.mem_map.mp hc
    simpa using mem_lower_of_mem_upper a (serialNormalized_mem h a ha)

/-- On a valid hex string the formatter succeeds with the normalized
serial. -/
lemma serial_format_ok {s : String} (h : isValidHexStr s = true) :
    _format_openssl_serial_number_str s = .ok (serialNormalized s) := by
  rw [serial_format_eval, serialNormalized_valid h]
  rfl

lemma serialNormalized_idem {s : String} (h : isValidHexStr s = true) :
    serialNormalized (serialNormalized s) = serialNormalized s := by
  apply String.ext
  rw [serialNormalized_data (serialNormalized s)]
  have heven : (serialNormalized s).data.length % 2 = 0 := by
    have := serialNormalized_even h
    rwa [length_data] at this
  have hcond : ¬ (serialNormalized s).data.length % 2 = 1 := by omega
  rw [if_neg hcond]
  exact map_id_of_mem fun c hc =>
    pyUpperChar_fix_of_mem_upper c (serialNormalized_mem h c hc)

lemma serialNormalized_of_valid {s : String} (h : isValidHexStr s = true) :
    isValidHexStr (serialNormalized s) = true := by
  simp only [isValidHexStr, Bool.and_eq_true, Bool.not_eq_true',
    List.isEmpty_eq_false, List.all_eq_true]
  refine ⟨serialNormalized_ne h, fun c hc => ?_⟩
  have := serialNormalized_mem h c hc
  revert this
  have : ∀ x ∈ upperHexDigits, hexDigits.contains x = true := by decide
  intro hmem
  exact this c hmem

/-- The normalized serial is a fixed point of the formatter. -/
lemma serial_format_fixpoint {s : String} (h : isValidHexStr s = true) :
    _format_openssl_serial_number_str (serialNormalized s) = .ok (serialNormalized s) := by
  rw [serial_format_eval, serialNormalized_idem h, serialNormalized_valid h]
  rfl

/-- After `rmtree root`, no path under `root` resolves. -/
lemma lookup_removeTree {root p : String} (fs : FS) (h : underRoot root p = true) :
    FS.lookup (fs.removeTree root) p = none := by
  induction fs with
  | nil => rfl
  | cons kv t ih =>
    simp only [FS.removeTree, List.filter] at *
    rcases hk : underRoot root kv.1 with _ | _
    · simp only [Bool.not_false, if_true]
      have hne : (kv.1 = p) = False := by
        simp only [eq_iff_iff, iff_false]
        intro hkp
        rw [hkp, h] at hk
        cases hk
      simp only [FS.lookup, List.find?]
      rw [show (decide (kv.1 = p)) = false by simp [hne]]
      exact ih
    · simp only [Bool.not_true, if_false]
      exact ih

/-- A failed `TmpEnv.__init__` consists of a failed write phase followed by
`_cleanup`: the error returned is the write phase's error and the resulting
filesystem is the write-phase filesystem with the sandbox tree removed. -/
lemma tmpEnvInit_error_spec {wi : String → Option PyErr} {pk : Option Pkcs11OptsDict}
    {iv : List (String × String)} {root : String} {fs0 : FS} {e : PyErr}
    (h : (tmpEnvInit wi pk iv root fs0).1 = .error e) :
    ∃ fsE, writeInitValues wi (prepareDirStructures pk root (fs0.set root .dir)).1
        (prepareDirStructures pk root (fs0.set root .dir)).2 (sortByKey iv)
        = (.error e, fsE)
      ∧ (tmpEnvInit wi pk iv root fs0).2 = fsE.removeTree root := by
  simp only [tmpEnvInit] at h ⊢
  rcases hp : prepareDirStructures pk root (fs0.set root .dir) with ⟨env0, fs2⟩
  rcases hw : writeInitValues wi (env0, fs2).1 (env0, fs2).2 (sortByKey iv) with ⟨r, fsE⟩
  rw [hp] at h
  rw [hw] at h
  cases r with
  | ok env => simp at h
  | error e' =>
    simp at h ⊢
    exact ⟨fsE, ⟨h, rfl⟩, rfl⟩

/-! ### Config-document lemmas -/

lemma getOpt_cons_hdr_self {sect key : String} {rest : ConfigDoc} :
    getOpt (.secHeader sect :: rest) sect key = (optsOf rest).lookup key := by
  simp [getOpt, sectionBody]

lemma getOpt_cons_hdr_ne {n sect key : String} {rest : ConfigDoc} (h : n ≠ sect) :
    getOpt (.secHeader n :: rest) sect key = getOpt rest sect key := by
  simp [getOpt, sectionBody, h]

lemma getOpt_cons_opt {k v sect key : String} {rest : ConfigDoc} :
    getOpt (.optLine k v :: rest) sect key = getOpt rest sect key := by
  simp [getOpt, sectionBody]

lemma getOpt_eq_sectOpts (doc : ConfigDoc) (sect key : String) :
    getOpt doc sect key = (sectOpts doc sect).lookup key := by
  cases h : sectionBody doc sect <;> simp [getOpt, sectOpts, h]

lemma sectOpts_cons_hdr_self {sect : String} {rest : ConfigDoc} :
    sectOpts (.secHeader sect :: rest) sect = optsOf rest := by
  simp [sectOpts, sectionBody]

lemma sectOpts_cons_hdr_ne {n sect : String} {rest : ConfigDoc} (h : n ≠ sect) :
    sectOpts (.secHeader n :: rest) sect = sectOpts rest sect := by
  simp [sectOpts, sectionBody, h]

lemma sectOpts_cons_opt {k v sect : String} {rest : ConfigDoc} :
    sectOpts (.optLine k v :: rest) sect = sectOpts rest sect := by
  simp [sectOpts, sectionBody]

lemma lookup_none_of_keys_ne {key : String} :
    ∀ {A : List (String × String)}, (∀ kv ∈ A, kv.1 ≠ key) → A.lookup key = none := by
  intro A
  induction A with
  | nil => intro _; rfl
  | cons kv t ih =>
    intro h
    have h1 : (key == kv.1) = false := by
      simp only [beq_eq_false_iff_ne, ne_eq]
      exact fun he => h kv (List.mem_cons_self kv t) he.symm
    simp only [List.lookup, h1]
    exact ih fun x hx => h x (List.mem_cons_of_mem _ hx)

lemma lookup_append_left_none {key : String} {A B : List (String × String)}
    (h : A.lookup key = none) : (A ++ B).lookup key = B.lookup key := by
  rw [List.lookup_append, h, Option.none_or]

lemma countP_zero_lookup_none {key : String} :
    ∀ {B : List (String × String)},
      B.countP (fun kv => kv.1 = key) = 0 → B.lookup key = none := by
  intro B
  induction B with
  | nil => intro _; rfl
  | cons kv t ih =>
    intro h
    rw [List.countP_cons] at h
    have h1 : ¬ (kv.1 = key) := by
      intro he
      simp [he] at h
    have h2 : (key == kv.1) = false := by
      simp only [beq_eq_false_iff_ne, ne_eq]
      exact fun he => h1 he.symm
    simp only [List.lookup, h2]
    exact ih (by omega)

lemma optsOf_opts_append (A : List (String × String)) (rest : ConfigDoc) :
    optsOf (A.map (fun kv => ConfigItem.optLine kv.1 kv.2) ++ rest)
      = A ++ optsOf rest := by
  induction A with
  | nil => rfl
  | cons kv t ih => simp [optsOf, ih]

lemma sectionBody_isSome_iff_hdrIn :
    ∀ (doc : ConfigDoc) (s : String), (sectionBody doc s).isSome = hdrIn doc s := by
  intro doc s
  induction doc with
  | nil => rfl
  | cons it rest ih =>
    cases it with
    | secHeader n =>
      by_cases h : n = s
      · subst h
        simp [sectionBody, hdrIn]
      · simp [sectionBody, hdrIn, h, ih]
    | optLine k v =>
      simp [sectionBody, hdrIn, ih]

lemma getOpt_some_hdrIn {doc : ConfigDoc} {s k v : String}
    (h : getOpt doc s k = some v) : hdrIn doc s = true := by
  rw [← sectionBody_isSome_iff_hdrIn]
  cases hb : sectionBody doc s with
  | none => rw [getOpt, hb] at h; cases h
  | some body => rfl

/-- A successful `substBody` replaces the first `key` line, all earlier
lines of the section being other options. -/
lemma substBody_eq_some {key newV : String} :
    ∀ {body body' : ConfigDoc}, substBody key newV body = some body' →
      ∃ (A : List (String × String)) (v : String) (B : ConfigDoc),
        body = A.map (fun kv => ConfigItem.optLine kv.1 kv.2)
          ++ ConfigItem.optLine key v :: B
        ∧ body' = A.map (fun kv => ConfigItem.optLine kv.1 kv.2)
          ++ ConfigItem.optLine key newV :: B
        ∧ ∀ kv ∈ A, kv.1 ≠ key := by
  intro body
  induction body with
  | nil => intro body' h; cases h
  | cons it rest ih =>
    intro body' h
    cases it with
    | secHeader n => cases h
    | optLine k v =>
      by_cases hk : k = key
      · subst hk
        simp only [substBody, if_true, eq_self_iff_true, ite_true,
          Option.some.injEq] at h
        exact ⟨[], v, rest, by simp, by simp [← h], by simp⟩
      · simp only [substBody, if_neg hk] at h
        cases hr : substBody key newV rest with
        | none => rw [hr] at h; cases h
        | some rest2 =>
          rw [hr] at h
          simp only [Option.map_some', Option.some.injEq] at h
          obtain ⟨A, v0, B, h1, h2, h3⟩ := ih hr
          refine ⟨(k, v) :: A, v0, B, ?_, ?_, ?_⟩
          · simp [h1]
          · simp [← h, h2]
          · intro kv hkv
            rcases List.mem_cons.mp hkv with rfl | hkv
            · exact hk
            · exact h3 kv hkv

lemma substBody_isSome {key newV v : String} :
    ∀ {body : ConfigDoc}, (optsOf body).lookup key = some v →
      (substBody key newV body).isSome = true := by
  intro body
  induction body with
  | nil => intro h; cases h
  | cons it rest ih =>
    intro h
    cases it with
    | secHeader n => cases h
    | optLine k w =>
      by_cases hk : k = key
      · subst hk
        simp [substBody]
      · simp only [optsOf, List.lookup] at h
        rw [show (key == k) = false by
          simp only [beq_eq_false_iff_ne, ne_eq]
          exact fun he => hk he.symm] at h
        have := ih h
        simp only [substBody, if_neg hk]
        cases hs : substBody key newV rest with
        | none => rw [hs] at this; cases this
        | some r => rfl

lemma substDoc_isSome {sect key newV v : String} :
    ∀ {doc : ConfigDoc}, getOpt doc sect key = some v →
      (substDoc sect key newV doc).isSome = true := by
  intro doc
  induction doc with
  | nil => intro h; cases h
  | cons it rest ih =>
    intro h
    cases it with
    | secHeader n =>
      by_cases hn : n = sect
      · subst hn
        rw [getOpt_cons_hdr_self] at h
        have := @substBody_isSome key newV v _ h
        simp only [substDoc, if_pos rfl]
        cases hs : substBody key newV rest with
        | none => rw [hs] at this; cases this
        | some r => rfl
      · rw [getOpt_cons_hdr_ne hn] at h
        have := ih h
        simp only [substDoc, if_neg hn]
        cases hs : substDoc sect key newV rest with
        | none => rw [hs] at this; cases this
        | some r => rfl
    | optLine k w =>
      rw [getOpt_cons_opt] at h
      have := ih h
      simp only [substDoc]
      cases hs : substDoc sect key newV rest with
      | none => rw [hs] at this; cases this
      | some r => rfl

lemma hdrIn_opts_append (A : List (String × String)) (rest : ConfigDoc) (s : String) :
    hdrIn (A.map (fun kv => ConfigItem.optLine kv.1 kv.2) ++ rest) s = hdrIn rest s := by
  induction A with
  | nil => rfl
  | cons kv t ih => simpa [hdrIn] using ih

lemma substDoc_hdrIn {sect key newV : String} :
    ∀ {doc doc' : ConfigDoc}, substDoc sect key newV doc = some doc' →
      ∀ s, hdrIn doc' s = hdrIn doc s := by
  intro doc
  induction doc with
  | nil => intro doc' h; cases h
  | cons it rest ih =>
    intro doc' h s
    cases it with
    | secHeader n =>
      by_cases hn : n = sect
      · subst hn
        simp only [substDoc, if_true, eq_self_iff_true, ite_true] at h
        cases hs : substBody key newV rest with
        | none => rw [hs] at h; cases h
        | some r =>
          rw [hs] at h
          simp only [Option.map_some', Option.some.injEq] at h
          obtain ⟨A, v0, B, h1, h2, -⟩ := substBody_eq_some hs
          rw [← h, h2, h1]
          simp [hdrIn, hdrIn_opts_append]
      · simp only [substDoc, if_neg hn] at h
        cases hs : substDoc sect key newV rest with
        | none => rw [hs] at h; cases h
        | some r =>
          rw [hs] at h
          simp only [Option.map_some', Option.some.injEq] at h
          rw [← h]
          simp [hdrIn, ih hs s]
    | optLine k w =>
      simp only [substDoc] at h
      cases hs : substDoc sect key newV rest with
      | none => rw [hs] at h; cases h
      | some r =>
        rw [hs] at h
        simp only [Option.map_some', Option.some.injEq] at h
        rw [← h]
        simp [hdrIn, ih hs s]

/-- A successful `substDoc` rewrites exactly the first `key` option of the
first `[sect]` section, at the option-list level. -/
lemma substDoc_sectOpts {sect key newV : String} :
    ∀ {doc doc' : ConfigDoc}, substDoc sect key newV doc = some doc' →
      ∃ (A : List (String × String)) (v : String) (B : List (String × String)),
        sectOpts doc sect = A ++ (key, v) :: B
        ∧ sectOpts doc' sect = A ++ (key, newV) :: B
        ∧ ∀ kv ∈ A, kv.1 ≠ key := by
  intro doc
  induction doc with
  | nil => intro doc' h; cases h
  | cons it rest ih =>
    intro doc' h
    cases it with
    | secHeader n =>
      by_cases hn : n = sect
      · subst hn
        simp only [substDoc, if_true, eq_self_iff_true, ite_true] at h
        cases hs : substBody key newV rest with
        | none => rw [hs] at h; cases h
        | some r =>
          rw [hs] at h
          simp only [Option.map_some', Option.some.injEq] at h
          obtain ⟨A, v0, B, h1, h2, h3⟩ := substBody_eq_some hs
          refine ⟨A, v0, optsOf B, ?_, ?_, h3⟩
          · rw [sectOpts_cons_hdr_self, h1, optsOf_opts_append, optsOf]
          · rw [← h, sectOpts_cons_hdr_self, h2, optsOf_opts_append, optsOf]
      · simp only [substDoc, if_neg hn] at h
        cases hs : substDoc sect key newV rest with
        | none => rw [hs] at h; cases h
        | some r =>
          rw [hs] at h
          simp only [Option.map_some', Option.some.injEq] at h
          obtain ⟨A, v0, B, h1, h2, h3⟩ := ih hs
          exact ⟨A, v0, B, by rwa [sectOpts_cons_hdr_ne hn],
            by rw [← h, sectOpts_cons_hdr_ne hn]; exact h2, h3⟩
    | optLine k w =>
      simp only [substDoc] at h
      cases hs : substDoc sect key newV rest with
      | none => rw [hs] at h; cases h
      | some r =>
        rw [hs] at h
        simp only [Option.map_some', Option.some.injEq] at h
        obtain ⟨A, v0, B, h1, h2, h3⟩ := ih hs
        exact ⟨A, v0, B, by rwa [sectOpts_cons_opt],
          by rw [← h, sectOpts_cons_opt]; exact h2, h3⟩

/-! ### Insertion lemmas -/

lemma insertAboveDoc_isSome {anchor : String} {block : ConfigDoc} :
    ∀ {doc : ConfigDoc}, hdrIn doc anchor = true →
      (insertAboveDoc anchor block doc).isSome = true := by
  intro doc
  induction doc with
  | nil => intro h; cases h
  | cons it rest ih =>
    intro h
    cases it with
    | secHeader n =>
      by_cases hn : n = anchor
      · subst hn
        simp [insertAboveDoc]
      · simp only [hdrIn, Bool.or_eq_true, decide_eq_true_eq] at h
        rcases h with h | h
        · exact absurd h hn
        · have := ih h
          simp only [insertAboveDoc, if_neg hn]
          cases hs : insertAboveDoc anchor block rest with
          | none => rw [hs] at this; cases this
          | some r => rfl
    | optLine k v =>
      simp only [hdrIn] at h
      have := ih h
      simp only [insertAboveDoc]
      cases hs : insertAboveDoc anchor block rest with
      | none => rw [hs] at this; cases this
      | some r => rfl

lemma insertAboveDoc_decomp {anchor : String} {block : ConfigDoc} :
    ∀ {doc doc' : ConfigDoc}, insertAboveDoc anchor block doc = some doc' →
      ∃ pre post, doc = pre ++ ConfigItem.secHeader anchor :: post
        ∧ doc' = pre ++ block ++ ConfigItem.secHeader anchor :: post := by
  intro doc
  induction doc with
  | nil => intro doc' h; cases h
  | cons it rest ih =>
    intro doc' h
    cases it with
    | secHeader n =>
      by_cases hn : n = anchor
      · subst hn
        simp only [insertAboveDoc, if_true, eq_self_iff_true, ite_true,
          Option.some.injEq] at h
        exact ⟨[], rest, by simp, by simp [← h]⟩
      · simp only [insertAboveDoc, if_neg hn] at h
        cases hs : insertAboveDoc anchor block rest with
        | none => rw [hs] at h; cases h
        | some r =>
          rw [hs] at h
          simp only [Option.map_some', Option.some.injEq] at h
          obtain ⟨pre, post, h1, h2⟩ := ih hs
          exact ⟨.secHeader n :: pre, post, by simp [h1], by simp [← h, h2]⟩
    | optLine k v =>
      simp only [insertAboveDoc] at h
      cases hs : insertAboveDoc anchor block rest with
      | none => rw [hs] at h; cases h
      | some r =>
        rw [hs] at h
        simp only [Option.map_some', Option.some.injEq] at h
        obtain ⟨pre, post, h1, h2⟩ := ih hs
        exact ⟨.optLine k v :: pre, post, by simp [h1], by simp [← h, h2]⟩

lemma sectionBody_pkcs11_append (d : Pkcs11OptsDict) (X : ConfigDoc) {sect : String}
    (hs1 : sect ≠ "openssl_def") (hs2 : sect ≠ "engine_section")
    (hs3 : sect ≠ "pkcs11_section") :
    sectionBody (pkcs11OptsItems d ++ X) sect = sectionBody X sect := by
  simp [pkcs11OptsItems, sectionBody, Ne.symm hs1, Ne.symm hs2, Ne.symm hs3]

lemma optsOf_pkcs11_append (d : Pkcs11OptsDict) (X : ConfigDoc) :
    optsOf (pkcs11OptsItems d ++ X) = [("openssl_conf", "openssl_def")] := by
  simp [pkcs11OptsItems, optsOf]

lemma optsOf_insertAboveDoc {anchor : String} {d : Pkcs11OptsDict} :
    ∀ {rest rest2 : ConfigDoc},
      insertAboveDoc anchor (pkcs11OptsItems d) rest = some rest2 →
      ∃ E, optsOf rest2 = optsOf rest ++ E
        ∧ ∀ kv ∈ E, (kv : String × String).1 = "openssl_conf" := by
  intro rest
  induction rest with
  | nil => intro rest2 h; cases h
  | cons it r ih =>
    intro rest2 h
    cases it with
    | secHeader m =>
      by_cases hm : m = anchor
      · subst hm
        simp only [insertAboveDoc, if_true, eq_self_iff_true, ite_true,
          Option.some.injEq] at h
        refine ⟨[("openssl_conf", "openssl_def")], ?_, by simp⟩
        rw [← h, optsOf_pkcs11_append]
        rfl
      · simp only [insertAboveDoc, if_neg hm] at h
        cases hs : insertAboveDoc anchor (pkcs11OptsItems d) r with
        | none => rw [hs] at h; cases h
        | some r2 =>
          rw [hs] at h
          simp only [Option.map_some', Option.some.injEq] at h
          exact ⟨[], by simp [← h, optsOf], by simp⟩
    | optLine k v =>
      simp only [insertAboveDoc] at h
      cases hs : insertAboveDoc anchor (pkcs11OptsItems d) r with
      | none => rw [hs] at h; cases h
      | some r2 =>
        rw [hs] at h
        simp only [Option.map_some', Option.some.injEq] at h
        obtain ⟨E, h1, h2⟩ := ih hs
        exact ⟨E, by simp [← h, optsOf, h1], h2⟩

lemma sectOpts_insertAboveDoc {anchor sect : String} {d : Pkcs11OptsDict}
    (hs1 : sect ≠ "openssl_def") (hs2 : sect ≠ "engine_section")
    (hs3 : sect ≠ "pkcs11_section") :
    ∀ {doc doc' : ConfigDoc},
      insertAboveDoc anchor (pkcs11OptsItems d) doc = some doc' →
      ∃ E, sectOpts doc' sect = sectOpts doc sect ++ E
        ∧ ∀ kv ∈ E, (kv : String × String).1 = "openssl_conf" := by
  intro doc
  induction doc with
  | nil => intro doc' h; cases h
  | cons it rest ih =>
    intro doc' h
    cases it with
    | secHeader n =>
      by_cases hna : n = anchor
      · subst hna
        simp only [insertAboveDoc, if_true, eq_self_iff_true, ite_true,
          Option.some.injEq] at h
        refine ⟨[], ?_, by simp⟩
        rw [← h, List.append_nil]
        show sectOpts (pkcs11OptsItems d ++ (ConfigItem.secHeader n :: rest)) sect = _
        rw [sectOpts, sectOpts, sectionBody_pkcs11_append d _ hs1 hs2 hs3]
      · simp only [insertAboveDoc, if_neg hna] at h
        cases hs : insertAboveDoc anchor (pkcs11OptsItems d) rest with
        | none => rw [hs] at h; cases h
        | some r =>
          rw [hs] at h
          simp only [Option.map_some', Option.some.injEq] at h
          by_cases hns : n = sect
          · subst hns
            obtain ⟨E, h1, h2⟩ := optsOf_insertAboveDoc hs
            exact ⟨E, by rw [← h, sectOpts_cons_hdr_self, sectOpts_cons_hdr_self, h1], h2⟩
          · obtain ⟨E, h1, h2⟩ := ih hs
            exact ⟨E, by rw [← h, sectOpts_cons_hdr_ne hns, sectOpts_cons_hdr_ne hns, h1], h2⟩
    | optLine k v =>
      simp only [insertAboveDoc] at h
      cases hs : insertAboveDoc anchor (pkcs11OptsItems d) rest with
      | none => rw [hs] at h; cases h
      | some r =>
        rw [hs] at h
        simp only [Option.map_some', Option.some.injEq] at h
        obtain ⟨E, h1, h2⟩ := ih hs
        exact ⟨E, by rw [← h, sectOpts_cons_opt, sectOpts_cons_opt, h1], h2⟩

/-! ### Removal lemmas -/

lemma removeBody_eq_some {key : String} :
    ∀ {body body' : ConfigDoc}, removeBody key body = some body' →
      ∃ (A : List (String × String)) (v : String) (B : ConfigDoc),
        body = A.map (fun kv => ConfigItem.optLine kv.1 kv.2)
          ++ ConfigItem.optLine key v :: B
        ∧ body' = A.map (fun kv => ConfigItem.optLine kv.1 kv.2) ++ B
        ∧ ∀ kv ∈ A, kv.1 ≠ key := by
  intro body
  induction body with
  | nil => intro body' h; cases h
  | cons it rest ih =>
    intro body' h
    cases it with
    | secHeader n => cases h
    | optLine k v =>
      by_cases hk : k = key
      · subst hk
        simp only [removeBody, if_true, eq_self_iff_true, ite_true,
          Option.some.injEq] at h
        exact ⟨[], v, rest, by simp, by simp [← h], by simp⟩
      · simp only [removeBody, if_neg hk] at h
        cases hr : removeBody key rest with
        | none => rw [hr] at h; cases h
        | some rest2 =>
          rw [hr] at h
          simp only [Option.map_some', Option.some.injEq] at h
          obtain ⟨A, v0, B, h1, h2, h3⟩ := ih hr
          refine ⟨(k, v) :: A, v0, B, by simp [h1], by simp [← h, h2], ?_⟩
          intro kv hkv
          rcases List.mem_cons.mp hkv with rfl | hkv
          · exact hk
          · exact h3 kv hkv

lemma removeBody_isSome {key v : String} :
    ∀ {body : ConfigDoc}, (optsOf body).lookup key = some v →
      (removeBody key body).isSome = true := by
  intro body
  induction body with
  | nil => intro h; cases h
  | cons it rest ih =>
    intro h
    cases it with
    | secHeader n => cases h
    | optLine k w =>
      by_cases hk : k = key
      · subst hk
        simp [removeBody]
      · simp only [optsOf, List.lookup] at h
        rw [show (key == k) = false by
          simp only [beq_eq_false_iff_ne, ne_eq]
          exact fun he => hk he.symm] at h
        have := ih h
        simp only [removeBody, if_neg hk]
        cases hs : removeBody key rest with
        | none => rw [hs] at this; cases this
        | some r => rfl

lemma removeDoc_isSome {sect key v : String} :
    ∀ {doc : ConfigDoc}, getOpt doc sect key = some v →
      (removeDoc sect key doc).isSome = true := by
  intro doc
  induction doc with
  | nil => intro h; cases h
  | cons it rest ih =>
    intro h
    cases it with
    | secHeader n =>
      by_cases hn : n = sect
      · subst hn
        rw [getOpt_cons_hdr_self] at h
        have := removeBody_isSome h
        simp only [removeDoc, if_true, eq_self_iff_true, ite_true]
        cases hs : removeBody key rest with
        | none => rw [hs] at this; cases this
        | some r => rfl
      · rw [getOpt_cons_hdr_ne hn] at h
        have := ih h
        simp only [removeDoc, if_neg hn]
        cases hs : removeDoc sect key rest with
        | none => rw [hs] at this; cases this
        | some r => rfl
    | optLine k w =>
      rw [getOpt_cons_opt] at h
      have := ih h
      simp only [removeDoc]
      cases hs : removeDoc sect key rest with
      | none => rw [hs] at this; cases this
      | some r => rfl

/-- A successful `removeDoc` deletes exactly the first `key` option of the
first `[sect]` section, at the option-list level. -/
lemma removeDoc_sectOpts {sect key : String} :
    ∀ {doc doc' : ConfigDoc}, removeDoc sect key doc = some doc' →
      ∃ (A : List (String × String)) (v : String) (B : List (String × String)),
        sectOpts doc sect = A ++ (key, v) :: B
        ∧ sectOpts doc' sect = A ++ B
        ∧ ∀ kv ∈ A, kv.1 ≠ key := by
  intro doc
  induction doc with
  | nil => intro doc' h; cases h
  | cons it rest ih =>
    intro doc' h
    cases it with
    | secHeader n =>
      by_cases hn : n = sect
      · subst hn
        simp only [removeDoc, if_true, eq_self_iff_true, ite_true] at h
        cases hs : removeBody key rest with
        | none => rw [hs] at h; cases h
        | some r =>
          rw [hs] at h
          simp only [Option.map_some', Option.some.injEq] at h
          obtain ⟨A, v0, B, h1, h2, h3⟩ := removeBody_eq_some hs
          refine ⟨A, v0, optsOf B, ?_, ?_, h3⟩
          · rw [sectOpts_cons_hdr_self, h1, optsOf_opts_append, optsOf]
          · rw [← h, sectOpts_cons_hdr_self, h2, optsOf_opts_append]
      · simp only [removeDoc, if_neg hn] at h
        cases hs : removeDoc sect key rest with
        | none => rw [hs] at h; cases h
        | some r =>
          rw [hs] at h
          simp only [Option.map_some', Option.some.injEq] at h
          obtain ⟨A, v0, B, h1, h2, h3⟩ := ih hs
          exact ⟨A, v0, B, by rwa [sectOpts_cons_hdr_ne hn],
            by rw [← h, sectOpts_cons_hdr_ne hn]; exact h2, h3⟩
    | optLine k w =>
      simp only [removeDoc] at h
      cases hs : removeDoc sect key rest with
      | none => rw [hs] at h; cases h
      | some r =>
        rw [hs] at h
        simp only [Option.map_some', Option.some.injEq] at h
        obtain ⟨A, v0, B, h1, h2, h3⟩ := ih hs
        exact ⟨A, v0, B, by rwa [sectOpts_cons_opt],
          by rw [← h, sectOpts_cons_opt]; exact h2, h3⟩

/-- Passing a `removeDoc` over the spliced engine stanza: the stanza's only
leading option key is `openssl_conf`, so a removal of a different key never
lands inside the stanza. -/
lemma removeDoc_pkcs11_append {sect key : String} (d : Pkcs11OptsDict) (Y : ConfigDoc)
    (hs1 : sect ≠ "openssl_def") (hs2 : sect ≠ "engine_section")
    (hs3 : sect ≠ "pkcs11_section") :
    removeDoc sect key (pkcs11OptsItems d ++ Y)
      = (removeDoc sect key Y).map (fun r => pkcs11OptsItems d ++ r) := by
  cases h : removeDoc sect key Y with
  | none =>
    simp [pkcs11OptsItems, removeDoc, Ne.symm hs1, Ne.symm hs2, Ne.symm hs3, h]
  | some r =>
    simp [pkcs11OptsItems, removeDoc, Ne.symm hs1, Ne.symm hs2, Ne.symm hs3, h]

lemma removeDoc_cons_hdr_shape {sect key n : String} {Y r : ConfigDoc}
    (h : removeDoc sect key (.secHeader n :: Y) = some r) :
    ∃ Y', r = .secHeader n :: Y' := by
  by_cases hn : n = sect
  · subst hn
    simp only [removeDoc, if_true, eq_self_iff_true, ite_true] at h
    cases hs : removeBody key Y with
    | none => rw [hs] at h; cases h
    | some y =>
      rw [hs] at h
      simp only [Option.map_some', Option.some.injEq] at h
      exact ⟨y, h.symm⟩
  · simp only [removeDoc, if_neg hn] at h
    cases hs : removeDoc sect key Y with
    | none => rw [hs] at h; cases h
    | some y =>
      rw [hs] at h
      simp only [Option.map_some', Option.some.injEq] at h
      exact ⟨y, h.symm⟩

lemma removeBody_append_block {key : String} {d : Pkcs11OptsDict} {X : ConfigDoc}
    (hk : key ≠ "openssl_conf") :
    ∀ {L body' : ConfigDoc},
      removeBody key (L ++ pkcs11OptsItems d ++ X) = some body' →
      ∃ L', body' = L' ++ pkcs11OptsItems d ++ X := by
  intro L
  induction L with
  | nil =>
    intro body' h
    simp only [List.nil_append] at h
    rw [show pkcs11OptsItems d ++ X
        = ConfigItem.optLine "openssl_conf" "openssl_def"
          :: (ConfigItem.secHeader "openssl_def"
              :: (pkcs11OptsItems d).drop 2 ++ X) from by simp [pkcs11OptsItems]] at h
    simp only [removeBody, if_neg (Ne.symm hk)] at h
    cases h
  | cons it L2 ih =>
    intro body' h
    cases it with
    | secHeader n => cases h
    | optLine k v =>
      by_cases hke : k = key
      · subst hke
        simp only [List.cons_append, removeBody, if_true, eq_self_iff_true,
          ite_true, Option.some.injEq] at h
        exact ⟨L2, by simp [← h]⟩
      · simp only [List.cons_append, removeBody, if_neg hke, List.append_eq] at h
        cases hs : removeBody key (L2 ++ pkcs11OptsItems d ++ X) with
        | none => rw [hs] at h; cases h
        | some r =>
          rw [hs] at h
          simp only [Option.map_some', Option.some.injEq] at h
          obtain ⟨L', hL⟩ := ih hs
          exact ⟨.optLine k v :: L', by simp [← h, hL]⟩

/-- Removing an option (of a key foreign to the stanza) from a document in
which the stanza sits immediately above the `[ca]` header keeps the stanza
immediately above that header. -/
lemma removeDoc_through_splice {sect key : String} {d : Pkcs11OptsDict}
    (hk : key ≠ "openssl_conf")
    (hs1 : sect ≠ "openssl_def") (hs2 : sect ≠ "engine_section")
    (hs3 : sect ≠ "pkcs11_section") :
    ∀ {pre post docF : ConfigDoc},
      removeDoc sect key (pre ++ pkcs11OptsItems d ++ .secHeader "ca" :: post)
        = some docF →
      ∃ pre' post',
        docF = pre' ++ pkcs11OptsItems d ++ ConfigItem.secHeader "ca" :: post' := by
  intro pre
  induction pre with
  | nil =>
    intro post docF h
    simp only [List.nil_append, List.append_assoc] at h
    rw [removeDoc_pkcs11_append d _ hs1 hs2 hs3] at h
    cases hs : removeDoc sect key (ConfigItem.secHeader "ca" :: post) with
    | none => rw [hs] at h; cases h
    | some r =>
      rw [hs] at h
      simp only [Option.map_some', Option.some.injEq] at h
      obtain ⟨Y', hY⟩ := removeDoc_cons_hdr_shape hs
      exact ⟨[], Y', by simp [← h, hY]⟩
  | cons it pre2 ih =>
    intro post docF h
    cases it with
    | secHeader n =>
      by_cases hn : n = sect
      · subst hn
        simp only [List.cons_append, removeDoc, if_true, eq_self_iff_true,
          ite_true, List.append_eq] at h
        cases hs : removeBody key (pre2 ++ pkcs11OptsItems d
            ++ ConfigItem.secHeader "ca" :: post) with
        | none => rw [hs] at h; cases h
        | some body' =>
          rw [hs] at h
          simp only [Option.map_some', Option.some.injEq] at h
          obtain ⟨L', hL⟩ := removeBody_append_block hk hs
          exact ⟨.secHeader n :: L', post, by simp [← h, hL]⟩
      · simp only [List.cons_append, removeDoc, if_neg hn, List.append_eq] at h
        cases hs : removeDoc sect key (pre2 ++ pkcs11OptsItems d
            ++ ConfigItem.secHeader "ca" :: post) with
        | none => rw [hs] at h; cases h
        | some r =>
          rw [hs] at h
          simp only [Option.map_some', Option.some.injEq] at h
          obtain ⟨pre', post', hF⟩ := ih hs
          exact ⟨.secHeader n :: pre', post', by simp [← h, hF]⟩
    | optLine k v =>
      simp only [List.cons_append, removeDoc, List.append_eq] at h
      cases hs : removeDoc sect key (pre2 ++ pkcs11OptsItems d
          ++ ConfigItem.secHeader "ca" :: post) with
      | none => rw [hs] at h; cases h
      | some r =>
        rw [hs] at h
        simp only [Option.map_some', Option.some.injEq] at h
        obtain ⟨pre', post', hF⟩ := ih hs
        exact ⟨.optLine k v :: pre', post', by simp [← h, hF]⟩

/-! ### Lookup and count bookkeeping -/

lemma lookup_decomp_self {A B : List (String × String)} {key v : String}
    (hA : ∀ kv ∈ A, kv.1 ≠ key) :
    (A ++ (key, v) :: B).lookup key = some v := by
  rw [lookup_append_left_none (lookup_none_of_keys_ne hA)]
  simp [List.lookup]

lemma lookup_middle_value_irrelevant {A B : List (String × String)} {key v w k' : String}
    (h : k' ≠ key) :
    (A ++ (key, v) :: B).lookup k' = (A ++ (key, w) :: B).lookup k' := by
  rw [List.lookup_append, List.lookup_append]
  have : (k' == key) = false := by simpa using h
  simp [List.lookup, this]

lemma lookup_middle_removed {A B : List (String × String)} {key v k' : String}
    (h : k' ≠ key) :
    (A ++ B).lookup k' = (A ++ (key, v) :: B).lookup k' := by
  rw [List.lookup_append, List.lookup_append]
  have : (k' == key) = false := by simpa using h
  simp [List.lookup, this]

lemma lookup_append_left_some {L E : List (String × String)} {key v : String}
    (h : L.lookup key = some v) : (L ++ E).lookup key = some v := by
  rw [List.lookup_append, h]
  rfl

lemma countP_middle_value_irrelevant {A B : List (String × String)} {key v w k0 : String} :
    (A ++ (key, v) :: B).countP (fun kv => kv.1 = k0)
      = (A ++ (key, w) :: B).countP (fun kv => kv.1 = k0) := by
  simp [List.countP_append, List.countP_cons]

lemma countP_append_foreign {L E : List (String × String)} {k0 : String}
    (h : ∀ kv ∈ E, (kv : String × String).1 ≠ k0) :
    (L ++ E).countP (fun kv => kv.1 = k0) = L.countP (fun kv => kv.1 = k0) := by
  rw [List.countP_append]
  have : E.countP (fun kv => decide (kv.1 = k0)) = 0 := by
    rw [List.countP_eq_zero]
    intro kv hkv
    simpa using h kv hkv
  omega

/-- One path substitution: succeeds when the option is present, sets it,
and preserves the section's other options, every section header, and the
per-key option counts. -/
lemma substOpt_step {doc : ConfigDoc} {sect key newV v : String}
    (h : getOpt doc sect key = some v) :
    ∃ doc', substOpt doc sect key newV = .ok doc'
      ∧ getOpt doc' sect key = some newV
      ∧ (∀ k', k' ≠ key → getOpt doc' sect k' = getOpt doc sect k')
      ∧ (∀ s, hdrIn doc' s = hdrIn doc s)
      ∧ ∀ k0, (sectOpts doc' sect).countP (fun kv => kv.1 = k0)
          = (sectOpts doc sect).countP (fun kv => kv.1 = k0) := by
  have hsome := @substDoc_isSome sect key newV v doc h
  cases hs : substDoc sect key newV doc with
  | none => rw [hs] at hsome; cases hsome
  | some doc' =>
    obtain ⟨A, v0, B, h1, h2, h3⟩ := substDoc_sectOpts hs
    refine ⟨doc', by simp [substOpt, hs], ?_, ?_, substDoc_hdrIn hs, ?_⟩
    · rw [getOpt_eq_sectOpts, h2]
      exact lookup_decomp_self h3
    · intro k' hk'
      rw [getOpt_eq_sectOpts, getOpt_eq_sectOpts, h1, h2]
      exact (lookup_middle_value_irrelevant hk').symm
    · intro k0
      rw [h1, h2]
      exact (countP_middle_value_irrelevant ..).symm

/-- The whole path-substitution pass of the config adapter: `dir` goes to
the sandbox root and the five mapped options go to their sandbox-local
paths, everything else about the active CA section's options, the headers
and the option counts being preserved. -/
lemma substitutedPaths_spec {ds : DirectoryStructure} {sect : String} {doc : ConfigDoc}
    {pkOpt : Option Pkcs11OptsDict} {pc pk pn pd ps : String}
    (hopts : ds.opts = some
      { pkcs11_opts_dict := pkOpt,
        paths_to_substitute :=
          [("certificate", pc), ("private_key", pk), ("new_certs_dir", pn),
           ("database", pd), ("serial", ps)] })
    (hdir : (getOpt doc sect "dir").isSome = true)
    (hcert : (getOpt doc sect "certificate").isSome = true)
    (hpk : (getOpt doc sect "private_key").isSome = true)
    (hpn : (getOpt doc sect "new_certs_dir").isSome = true)
    (hpd : (getOpt doc sect "database").isSome = true)
    (hps : (getOpt doc sect "serial").isSome = true) :
    ∃ doc6, ds.substitutedPaths sect doc = .ok doc6
      ∧ getOpt doc6 sect "dir" = some (pyDirname ds.path)
      ∧ getOpt doc6 sect "certificate" = some pc
      ∧ getOpt doc6 sect "private_key" = some pk
      ∧ getOpt doc6 sect "new_certs_dir" = some pn
      ∧ getOpt doc6 sect "database" = some pd
      ∧ getOpt doc6 sect "serial" = some ps
      ∧ (∀ s, hdrIn doc6 s = hdrIn doc s)
      ∧ ∀ k0, (sectOpts doc6 sect).countP (fun kv => kv.1 = k0)
          = (sectOpts doc sect).countP (fun kv => kv.1 = k0) := by
  obtain ⟨v1, h1⟩ := Option.isSome_iff_exists.mp hdir
  obtain ⟨d1, hs1, hg1, hp1, hh1, hc1⟩ := @substOpt_step doc sect _ (pyDirname ds.path) _ h1
  have hx2 : (getOpt d1 sect "certificate").isSome = true := by
    rw [hp1 "certificate" (by decide)]; exact hcert
  obtain ⟨v2, h2⟩ := Option.isSome_iff_exists.mp hx2
  obtain ⟨d2, hs2, hg2, hp2, hh2, hc2⟩ := @substOpt_step d1 sect _ pc _ h2
  have hx3 : (getOpt d2 sect "private_key").isSome = true := by
    rw [hp2 "private_key" (by decide), hp1 "private_key" (by decide)]; exact hpk
  obtain ⟨v3, h3⟩ := Option.isSome_iff_exists.mp hx3
  obtain ⟨d3, hs3, hg3, hp3, hh3, hc3⟩ := @substOpt_step d2 sect _ pk _ h3
  have hx4 : (getOpt d3 sect "new_certs_dir").isSome = true := by
    rw [hp3 "new_certs_dir" (by decide), hp2 "new_certs_dir" (by decide),
      hp1 "new_certs_dir" (by decide)]
    exact hpn
  obtain ⟨v4, h4⟩ := Option.isSome_iff_exists.mp hx4
  obtain ⟨d4, hs4, hg4, hp4, hh4, hc4⟩ := @substOpt_step d3 sect _ pn _ h4
  have hx5 : (getOpt d4 sect "database").isSome = true := by
    rw [hp4 "database" (by decide), hp3 "database" (by decide),
      hp2 "database" (by decide), hp1 "database" (by decide)]
    exact hpd
  obtain ⟨v5, h5⟩ := Option.isSome_iff_exists.mp hx5
  obtain ⟨d5, hs5, hg5, hp5, hh5, hc5⟩ := @substOpt_step d4 sect _ pd _ h5
  have hx6 : (getOpt d5 sect "serial").isSome = true := by
    rw [hp5 "serial" (by decide), hp4 "serial" (by decide), hp3 "serial" (by decide),
      hp2 "serial" (by decide), hp1 "serial" (by decide)]
    exact hps
  obtain ⟨v6, h6⟩ := Option.isSome_iff_exists.mp hx6
  obtain ⟨d6, hs6, hg6, hp6, hh6, hc6⟩ := @substOpt_step d5 sect _ ps _ h6
  refine ⟨d6, ?_, ?_, ?_, ?_, ?_, ?_, hg6, ?_, ?_⟩
  · simp [DirectoryStructure.substitutedPaths, DirectoryStructure.substitutePath,
      hopts, hs1, hs2, hs3, hs4, hs5, hs6, bind, Except.bind, List.foldlM,
      pure, Except.pure]
  · rw [hp6 "dir" (by decide), hp5 "dir" (by decide), hp4 "dir" (by decide),
      hp3 "dir" (by decide), hp2 "dir" (by decide)]
    exact hg1
  · rw [hp6 "certificate" (by decide), hp5 "certificate" (by decide),
      hp4 "certificate" (by decide), hp3 "certificate" (by decide)]
    exact hg2
  · rw [hp6 "private_key" (by decide), hp5 "private_key" (by decide),
      hp4 "private_key" (by decide)]
    exact hg3
  · rw [hp6 "new_certs_dir" (by decide), hp5 "new_certs_dir" (by decide)]
    exact hg4
  · rw [hp6 "database" (by decide)]
    exact hg5
  · intro s
    rw [hh6 s, hh5 s, hh4 s, hh3 s, hh2 s, hh1 s]
  · intro k0
    rw [hc6 k0, hc5 k0, hc4 k0, hc3 k0, hc2 k0, hc1 k0]

lemma stanzaImmediatelyAbove_iff {doc block : ConfigDoc} {sect : String} :
    stanzaImmediatelyAbove doc block sect
      ↔ stanzaImmediatelyAboveB doc block sect = true := by
  constructor
  · rintro ⟨pre, post, rfl⟩
    simp only [stanzaImmediatelyAboveB, List.any_eq_true, List.mem_range]
    refine ⟨pre.length, ?_, ?_⟩
    · simp only [List.length_append, List.length_cons]
      omega
    · have hdrop : (pre ++ block ++ ConfigItem.secHeader sect :: post).drop pre.length
          = block ++ ConfigItem.secHeader sect :: post := by
        rw [List.append_assoc, List.drop_left]
      rw [hdrop, List.isPrefixOf_iff_prefix]
      exact ⟨post, by simp⟩
  · rintro h
    simp only [stanzaImmediatelyAboveB, List.any_eq_true, List.mem_range] at h
    obtain ⟨i, -, hpref⟩ := h
    rw [List.isPrefixOf_iff_prefix] at hpref
    obtain ⟨r, hr⟩ := hpref
    refine ⟨doc.take i, r, ?_⟩
    calc doc = doc.take i ++ doc.drop i := (List.take_append_drop i doc).symm
    _ = doc.take i ++ ((block ++ [ConfigItem.secHeader sect]) ++ r) := by rw [hr]
    _ = doc.take i ++ block ++ ConfigItem.secHeader sect :: r := by simp

end Lemmas

/-! # Claims -/

/-- **C4.** For every valid hexadecimal string `s`, the serial formatter is
idempotent (`format_serial(format_serial(s)) == format_serial(s)`), the
result is uppercase with an even digit count, and an odd-length input is
left-padded with a single `'0'`. -/
theorem C4_serial_formatter_idempotent (s : String) (h : isValidHexStr s = true) :
    _format_openssl_serial_number_str s = .ok (serialNormalized s)
    ∧ ((_format_openssl_serial_number_str s).bind _format_openssl_serial_number_str
        = _format_openssl_serial_number_str s)
    ∧ (∀ c ∈ (serialNormalized s).data, c ∈ upperHexDigits)
    ∧ (serialNormalized s).length % 2 = 0
    ∧ (s.length % 2 = 1 → serialNormalized s = ⟨'0' :: (pyUpper s).data⟩) := by
  refine ⟨serial_format_ok h, ?_, serialNormalized_mem h, serialNormalized_even h, ?_⟩
  · rw [serial_format_ok h]
    simpa using serial_format_fixpoint h
  · intro hodd
    rw [length_data] at hodd
    apply String.ext
    rw [serialNormalized_data, if_pos hodd]
    rfl

/-- Witness for C4: `format_serial("ABC") = "0ABC"` (the claim's own
example), with every hypothesis discharged at that input. -/
theorem C4_witness :
    isValidHexStr "ABC" = true
    ∧ _format_openssl_serial_number_str "ABC" = .ok (serialNormalized "ABC")
    ∧ serialNormalized "ABC" = "0ABC" :=
  ⟨by decide, (C4_serial_formatter_idempotent "ABC" (by decide)).1, by decide⟩

/-- **C5.** Every non-datetime input to the date formatter raises a type
violation; every non-text input to the serial formatter raises a type
violation; every text input that is not a valid serial number after
normalization (uppercasing and even-length padding) raises a value
violation. -/
theorem C5_formatter_type_value_errors :
    (∀ v : PyVal, v.isDatetime = false → _format_openssl_dt v = .error .typeError)
    ∧ (∀ v : PyVal, v.isStr = false → _format_openssl_serial_number v = .error .typeError)
    ∧ (∀ s : String, is_cert_serial_number_valid (pyLower (serialNormalized s)) = false →
        _format_openssl_serial_number (.str s) = .error .valueError) := by
  refine ⟨?_, ?_, ?_⟩
  · intro v hv
    cases v <;> simp_all [PyVal.isDatetime, _format_openssl_dt]
  · intro v hv
    cases v <;> simp_all [PyVal.isStr, _format_openssl_serial_number]
  · intro s hs
    simp only [_format_openssl_serial_number, _format_openssl_serial_number_str]
    simp only [serialNormalized] at hs
    split <;> simp_all

/-- One record's loop body agrees with the claim's line description
whenever the record's serial number is a valid hex string. -/
lemma indexLine_ok {now : PyDatetime} {c : CertData}
    (h : isValidHexStr c.serial_hex = true) :
    indexLine now c = .ok (indexLineSpec now c) := by
  simp only [indexLine, serial_format_ok h, bind, Except.bind]
  rcases hrev : c.revoked_on with _ | r <;> rcases hexp : c.expires_on with _ | e <;>
    simp [indexLineSpec, statusFlagSpec, hrev, hexp, pure, Except.pure]

/-- **C2.** For every finite ordered sequence of certificate records, the
index codec renders exactly one newline-terminated line per record, in
input order, each line being the six tab-separated fields the claim lists
(status flag with revocation taking precedence over expiry, formatted
expiry or empty, formatted revocation or empty, normalized serial, the
constant `unknown`, subject), provided every record's serial number is a
valid hexadecimal string. -/
theorem C2_index_codec (now : PyDatetime) (certs : List CertData)
    (h : ∀ c ∈ certs, isValidHexStr c.serial_hex = true) :
    _make_openssl_index_file_content now certs
      = .ok ((certs.map (indexLineSpec now)).foldr (· ++ ·) "") := by
  induction certs with
  | nil => rfl
  | cons c cs ih =>
    have hc := h c (List.mem_cons_self c cs)
    have hcs := ih fun x hx => h x (List.mem_cons_of_mem _ hx)
    simp only [_make_openssl_index_file_content, indexLine_ok hc, hcs,
      bind, Except.bind, List.map_cons, List.foldr_cons, pure, Except.pure]

/-- Witness for C2: three records — valid/unexpired, expired, and
revoked-while-expired — render three lines with status letters `V`, `E`,
`R` in input order. -/
theorem C2_witness :
    _make_openssl_index_file_content ⟨2025, 1, 1, 0, 0, 0, 0, none⟩
      [⟨"ab12", "/CN=alice", some ⟨2030, 1, 1, 0, 0, 0, 0, none⟩, none, "PEM1"⟩,
       ⟨"CD3", "/CN=bob", some ⟨2020, 1, 1, 0, 0, 0, 0, none⟩, none, "PEM2"⟩,
       ⟨"ef", "/CN=carol", some ⟨2020, 1, 1, 0, 0, 0, 0, none⟩,
        some ⟨2021, 2, 3, 4, 5, 6, 0, none⟩, "PEM3"⟩]
      = .ok ("V\t300101000000Z\t\tAB12\tunknown\t/CN=alice\n"
          ++ ("E\t200101000000Z\t\t0CD3\tunknown\t/CN=bob\n"
          ++ ("R\t200101000000Z\t210203040506Z\tEF\tunknown\t/CN=carol\n" ++ ""))) := by
  rw [C2_index_codec _ _ (by decide)]
  rfl

/-- **C3.** For every timestamp, the date formatter returns a string of
exactly 13 characters ending in `'Z'`; two equal instants expressed in
different UTC offsets format to the identical string; the result is
invariant under prior normalization to UTC; and the instant
2013-06-06T12:13:57Z formats to `"130606121357Z"`. -/
theorem C3_date_formatter :
    (∀ dt : PyDatetime, (_format_openssl_dt_dt dt).length = 13
        ∧ (_format_openssl_dt_dt dt).data.getLast? = some 'Z')
    ∧ (∀ a b : PyDatetime,
        a.tzOffsetMinutes.isSome = true → b.tzOffsetMinutes.isSome = true →
        toUTCTotalSeconds a = toUTCTotalSeconds b →
        _format_openssl_dt_dt a = _format_openssl_dt_dt b)
    ∧ (∀ dt : PyDatetime,
        _format_openssl_dt_dt (datetime_utc_normalize dt) = _format_openssl_dt_dt dt)
    ∧ _format_openssl_dt_dt ⟨2013, 6, 6, 12, 13, 57, 0, none⟩ = "130606121357Z" := by
  refine ⟨fun dt => ⟨?_, ?_⟩, fun a b ha hb h => ?_, fun dt => ?_, by decide⟩
  · simp [_format_openssl_dt_dt, String.length_append, pad2, length_data]
  · simp [_format_openssl_dt_dt, pad2, String.data_append]
  · obtain ⟨oa, hoa⟩ := Option.isSome_iff_exists.mp ha
    obtain ⟨ob, hob⟩ := Option.isSome_iff_exists.mp hb
    simp only [_format_openssl_dt_dt, datetime_utc_normalize, hoa, hob, h]
  · cases hdt : dt.tzOffsetMinutes with
    | none => simp [datetime_utc_normalize, hdt]
    | some o => simp [_format_openssl_dt_dt, datetime_utc_normalize, hdt]

/-- Witness for C3: the source doctest's two offset-aware datetimes
(14:13:57 at UTC+2 and 12:13:57 at UTC+0) denote the same instant and
format identically. -/
theorem C3_witness :
    _format_openssl_dt_dt ⟨2013, 6, 6, 14, 13, 57, 951211, some 120⟩
      = _format_openssl_dt_dt ⟨2013, 6, 6, 12, 13, 57, 951211, some 0⟩ :=
  C3_date_formatter.2.1 _ _ (by decide) (by decide) (by decide)

/-- Witness for C5: the doctests' own bad inputs — `None` to the date
formatter, a non-text value and the non-hex text `"zz"` to the serial
formatter. -/
theorem C5_witness :
    _format_openssl_dt .pyNone = .error .typeError
    ∧ _format_openssl_serial_number .pyNone = .error .typeError
    ∧ _format_openssl_serial_number (.str "zz") = .error .valueError :=
  ⟨C5_formatter_type_value_errors.1 .pyNone (by decide),
   C5_formatter_type_value_errors.2.1 .pyNone (by decide),
   C5_formatter_type_value_errors.2.2 "zz" (by decide)⟩

/-- **C1.** Sandbox teardown is unconditional.  First conjunct: whenever
construction fails, the error is exactly the one the failing node write
raised (re-raised unchanged), and nothing under the sandbox root survives.
Second conjunct: a sandbox opened as a scoped resource leaves nothing under
its root on any control-flow exit — including when the body (toolchain
invocation, config adapter or caller code) ends in an error — and the
body's outcome propagates. -/
theorem C1_sandbox_teardown :
    (∀ (wi : String → Option PyErr) (pk : Option Pkcs11OptsDict)
       (iv : List (String × String)) (root : String) (fs0 : FS) (e : PyErr),
      (tmpEnvInit wi pk iv root fs0).1 = .error e →
        (∃ fsE, writeInitValues wi
            (prepareDirStructures pk root (fs0.set root .dir)).1
            (prepareDirStructures pk root (fs0.set root .dir)).2 (sortByKey iv)
            = (.error e, fsE))
        ∧ ∀ p, underRoot root p = true →
            FS.lookup (tmpEnvInit wi pk iv root fs0).2 p = none)
    ∧ (∀ (α : Type) (wi : String → Option PyErr) (pk : Option Pkcs11OptsDict)
       (iv : List (String × String)) (root : String) (fs0 : FS)
       (body : TmpEnvObj → FS → Except PyErr α × FS),
        (∀ p, underRoot root p = true →
          FS.lookup (withTmpEnv wi pk iv root fs0 body).2 p = none)
        ∧ ∀ env fs1, tmpEnvInit wi pk iv root fs0 = (.ok env, fs1) →
            (withTmpEnv wi pk iv root fs0 body).1 = (body env fs1).1) := by
  constructor
  · intro wi pk iv root fs0 e h
    obtain ⟨fsE, hw, h2⟩ := tmpEnvInit_error_spec h
    refine ⟨⟨fsE, hw⟩, fun p hp => ?_⟩
    rw [h2]
    exact lookup_removeTree _ hp
  · intro α wi pk iv root fs0 body
    constructor
    · intro p hp
      simp only [withTmpEnv]
      rcases ht : tmpEnvInit wi pk iv root fs0 with ⟨r, fsr⟩
      cases r with
      | error e =>
        have h1 : (tmpEnvInit wi pk iv root fs0).1 = .error e := by rw [ht]
        obtain ⟨fsE, hw, h2⟩ := tmpEnvInit_error_spec h1
        have hfsr : fsr = fsE.removeTree root := by
          rw [ht] at h2
          exact h2
        simp only [hfsr]
        exact lookup_removeTree _ hp
      | ok env =>
        exact lookup_removeTree _ hp
    · intro env fs1 h
      simp only [withTmpEnv, h]

/-- Witness for C1: injecting a write failure on the `ca_cert` node leaves
nothing at the node's path after construction; and a body that itself
fails still finds the sandbox config file deleted afterwards. -/
theorem C1_witness :
    FS.lookup
        (tmpEnvInit (fun n => if n = "ca_cert" then some .osError else none) none
          [("ca_cert", "X")] "/tmp/t" []).2 "/tmp/t/cacert.pem" = none
    ∧ FS.lookup
        (withTmpEnv (fun _ => none) none [("ca_cert", "X")] "/tmp/t" []
          (fun _ fs => ((.error .valueError : Except PyErr String), fs))).2
        "/tmp/t/openssl.cnf" = none :=
  ⟨((C1_sandbox_teardown.1
      (fun n => if n = "ca_cert" then some .osError else none) none
      [("ca_cert", "X")] "/tmp/t" [] .osError rfl).2 "/tmp/t/cacert.pem" (by decide)),
   ((C1_sandbox_teardown.2 String (fun _ => none) none [("ca_cert", "X")] "/tmp/t" []
      (fun _ fs => ((.error .valueError : Except PyErr String), fs))).1
      "/tmp/t/openssl.cnf" (by decide))⟩

/-- **C7.** For every configuration text that fails to parse, the config
adapter fails with the distinct invalid-CA-configuration error wrapping the
underlying parse error — never with a generic unwrapped error. -/
theorem C7_parse_error_wrapped (ds : DirectoryStructure) (text : String) (e : String)
    (h : parseConfigText text = .error e) :
    ds.getAdjustedOpensslConfig text = .error (.invalidSSLConfig e) := by
  simp [DirectoryStructure.getAdjustedOpensslConfig, h, throw, throwThe,
    MonadExceptOf.throw, bind, Except.bind]

/-- Witness for C7: a text whose first line is neither blank, comment,
header nor `key = value` is a parse error and is wrapped. -/
theorem C7_witness :
    (DirectoryStructure.mk "openssl.cnf" "" "/tmp/t/" none (some ⟨none, []⟩)
        |>.getAdjustedOpensslConfig "bogus line without an equals sign")
      = .error (.invalidSSLConfig "bogus line without an equals sign") :=
  C7_parse_error_wrapped _ _ _ rfl

/-- **C6 (counterexample).** The claim as stated — that with a descriptor
the engine stanza is inserted immediately above the CA section from which
`private_key` is removed (the active CA section) — fails at a typical
configuration whose active CA section `CA_default` is distinct from the
top-level `[ca]` section: the stanza is spliced above `[ca]`, so the items
`[ca]` and `default_ca = CA_default` separate it from `[CA_default]`. -/
theorem C6_counterexample_insert_position :
    exampleSslConfNode.getAdjustedOpensslConfig exampleSSLConfigText
      = .ok exampleAdjustedDoc
    ∧ (parseConfigText exampleSSLConfigText).map
        (fun doc => getOpt doc "ca" "default_ca") = .ok (some "CA_default")
    ∧ getOpt exampleAdjustedDoc "CA_default" "private_key" = none
    ∧ ¬ stanzaImmediatelyAbove exampleAdjustedDoc
        (pkcs11OptsItems examplePkcs11Opts) "CA_default" := by
  refine ⟨rfl, rfl, rfl, ?_⟩
  rw [stanzaImmediatelyAbove_iff]
  decide

/-- **C6 (amended).** For every parseable configuration text whose active
CA section (resolved from `ca.default_ca`) contains the `dir`,
`certificate`, `private_key`, `new_certs_dir`, `database` and `serial`
options: adaptation without a hardware-engine descriptor leaves the active
CA section's `private_key` option present while rewriting `dir` (to the
sandbox root), `certificate`, `private_key`, `new_certs_dir`, `database`
and `serial` to their sandbox-local paths; adaptation with a descriptor
additionally inserts the engine stanza immediately above the top-level
`ca` section — the section holding the default-CA pointer, not in general
the active CA section — and removes `private_key` from the active CA
section entirely (assuming the section names the stanza introduces are not
the active CA section's, and the section holds a single `private_key`
line). -/
theorem C6_config_adaptation :
    (∀ (ds : DirectoryStructure) (text : String) (doc : ConfigDoc)
       (sect pc pk pn pd ps : String) ,
      ds.opts = some
        { pkcs11_opts_dict := none,
          paths_to_substitute :=
            [("certificate", pc), ("private_key", pk), ("new_certs_dir", pn),
             ("database", pd), ("serial", ps)] } →
      parseConfigText text = .ok doc →
      getOpt doc "ca" "default_ca" = some sect →
      (getOpt doc sect "dir").isSome = true →
      (getOpt doc sect "certificate").isSome = true →
      (getOpt doc sect "private_key").isSome = true →
      (getOpt doc sect "new_certs_dir").isSome = true →
      (getOpt doc sect "database").isSome = true →
      (getOpt doc sect "serial").isSome = true →
      ∃ doc', ds.getAdjustedOpensslConfig text = .ok doc'
        ∧ getOpt doc' sect "private_key" = some pk
        ∧ getOpt doc' sect "dir" = some (pyDirname ds.path)
        ∧ getOpt doc' sect "certificate" = some pc
        ∧ getOpt doc' sect "new_certs_dir" = some pn
        ∧ getOpt doc' sect "database" = some pd
        ∧ getOpt doc' sect "serial" = some ps)
    ∧ (∀ (ds : DirectoryStructure) (text : String) (doc : ConfigDoc)
       (sect pc pk pn pd ps : String) (d : Pkcs11OptsDict),
      ds.opts = some
        { pkcs11_opts_dict := some d,
          paths_to_substitute :=
            [("certificate", pc), ("private_key", pk), ("new_certs_dir", pn),
             ("database", pd), ("serial", ps)] } →
      parseConfigText text = .ok doc →
      getOpt doc "ca" "default_ca" = some sect →
      (getOpt doc sect "dir").isSome = true →
      (getOpt doc sect "certificate").isSome = true →
      (getOpt doc sect "private_key").isSome = true →
      (getOpt doc sect "new_certs_dir").isSome = true →
      (getOpt doc sect "database").isSome = true →
      (getOpt doc sect "serial").isSome = true →
      sect ≠ "openssl_def" → sect ≠ "engine_section" → sect ≠ "pkcs11_section" →
      (sectOpts doc sect).countP (fun kv => kv.1 = "private_key") ≤ 1 →
      ∃ doc', ds.getAdjustedOpensslConfig text = .ok doc'
        ∧ stanzaImmediatelyAbove doc' (pkcs11OptsItems d) "ca"
        ∧ getOpt doc' sect "private_key" = none
        ∧ getOpt doc' sect "dir" = some (pyDirname ds.path)
        ∧ getOpt doc' sect "certificate" = some pc
        ∧ getOpt doc' sect "new_certs_dir" = some pn
        ∧ getOpt doc' sect "database" = some pd
        ∧ getOpt doc' sect "serial" = some ps) := by
  constructor
  · intro ds text doc sect pc pk pn pd ps hopts hparse hca hdir hcert hpk hpn hpd hps
    obtain ⟨doc6, hsub, hgdir, hgc, hgpk, hgn, hgd, hgs, -, -⟩ :=
      substitutedPaths_spec hopts hdir hcert hpk hpn hpd hps
    refine ⟨doc6, ?_, hgpk, hgdir, hgc, hgn, hgd, hgs⟩
    simp [DirectoryStructure.getAdjustedOpensslConfig, hparse, hca, hsub, hopts,
      bind, Except.bind, pure, Except.pure]
  · intro ds text doc sect pc pk pn pd ps d hopts hparse hca hdir hcert hpk hpn
      hpd hps hs1 hs2 hs3 hcount
    obtain ⟨doc6, hsub, hgdir, hgc, hgpk, hgn, hgd, hgs, hhdr, hcnt⟩ :=
      substitutedPaths_spec hopts hdir hcert hpk hpn hpd hps
    have hhdrca : hdrIn doc6 "ca" = true := by
      rw [hhdr]
      exact getOpt_some_hdrIn hca
    have hinsS := @insertAboveDoc_isSome _ (pkcs11OptsItems d) doc6 hhdrca
    cases hins : insertAboveDoc "ca" (pkcs11OptsItems d) doc6 with
    | none => rw [hins] at hinsS; cases hinsS
    | some doc7 =>
      obtain ⟨preI, postI, -, hdec2⟩ := insertAboveDoc_decomp hins
      obtain ⟨E, hE, hEkeys⟩ := sectOpts_insertAboveDoc hs1 hs2 hs3 hins
      have hg7 : ∀ k0 w, getOpt doc6 sect k0 = some w → getOpt doc7 sect k0 = some w := by
        intro k0 w hw
        rw [getOpt_eq_sectOpts, hE]
        exact lookup_append_left_some (by rw [← getOpt_eq_sectOpts]; exact hw)
      have hg7pk := hg7 "private_key" pk hgpk
      have hremS := removeDoc_isSome hg7pk
      cases hrem : removeDoc sect "private_key" doc7 with
      | none => rw [hrem] at hremS; cases hremS
      | some docF =>
        obtain ⟨A, v0, B, hR1, hR2, hRA⟩ := removeDoc_sectOpts hrem
        have hcnt7 : (sectOpts doc7 sect).countP (fun kv => kv.1 = "private_key") ≤ 1 := by
          rw [hE, countP_append_foreign (fun kv hkv => by rw [hEkeys kv hkv]; decide),
            hcnt]
          exact hcount
        have hcB : B.countP (fun kv => kv.1 = "private_key") = 0 := by
          rw [hR1] at hcnt7
          rw [List.countP_append, List.countP_cons] at hcnt7
          simp at hcnt7
          omega
        have hpknone : getOpt docF sect "private_key" = none := by
          rw [getOpt_eq_sectOpts, hR2,
            lookup_append_left_none (lookup_none_of_keys_ne hRA)]
          exact countP_zero_lookup_none hcB
        have hgF : ∀ k0 w, k0 ≠ "private_key" → getOpt doc6 sect k0 = some w →
            getOpt docF sect k0 = some w := by
          intro k0 w hk0 hw
          rw [getOpt_eq_sectOpts, hR2, ← (@lookup_middle_removed A B _ v0 _ hk0).symm]
          rw [show A ++ ("private_key", v0) :: B = sectOpts doc7 sect from hR1.symm]
          rw [← getOpt_eq_sectOpts]
          exact hg7 k0 w hw
        have hstanza : stanzaImmediatelyAbove docF (pkcs11OptsItems d) "ca" := by
          rw [hdec2] at hrem
          obtain ⟨pre', post', hF⟩ :=
            removeDoc_through_splice (by decide) hs1 hs2 hs3 hrem
          exact ⟨pre', post', by simpa using hF⟩
        refine ⟨docF, ?_, hstanza, hpknone,
          hgF "dir" _ (by decide) hgdir,
          hgF "certificate" _ (by decide) hgc,
          hgF "new_certs_dir" _ (by decide) hgn,
          hgF "database" _ (by decide) hgd,
          hgF "serial" _ (by decide) hgs⟩
        simp [DirectoryStructure.getAdjustedOpensslConfig, hparse, hca, hsub, hopts,
          insertAbove, hins, removeOpt, hrem, bind, Except.bind, pure, Except.pure]

/-- Witness for the amended C6: at the concrete scenario the adapter
produces `exampleAdjustedDoc`, whose stanza sits immediately above `[ca]`,
whose `[CA_default]` section has lost `private_key`, and whose `dir` is the
sandbox root. -/
theorem C6_witness :
    exampleSslConfNode.getAdjustedOpensslConfig exampleSSLConfigText
      = .ok exampleAdjustedDoc
    ∧ stanzaImmediatelyAbove exampleAdjustedDoc
        (pkcs11OptsItems examplePkcs11Opts) "ca"
    ∧ getOpt exampleAdjustedDoc "CA_default" "private_key" = none
    ∧ getOpt exampleAdjustedDoc "CA_default" "dir" = some "/tmp/t" := by
  obtain ⟨doc', h1, h2, h3, h4, -, -, -, -⟩ :=
    C6_config_adaptation.2 exampleSslConfNode exampleSSLConfigText exampleParsedDoc
      "CA_default" "/tmp/t/cacert.pem" "/tmp/t/private/cakey.pem" "/tmp/t/certs/"
      "/tmp/t/index.txt" "/tmp/t/serial" examplePkcs11Opts
      rfl rfl rfl rfl rfl rfl rfl rfl rfl
      (by decide) (by decide) (by decide) (by decide)
  have hok : exampleSslConfNode.getAdjustedOpensslConfig exampleSSLConfigText
      = .ok exampleAdjustedDoc := rfl
  rw [hok] at h1
  have hd : doc' = exampleAdjustedDoc := (Except.ok.inj h1).symm
  subst hd
  exact ⟨hok, h2, h3, by simpa using h4⟩

/-- **C8.** For each of the sign, revoke and CRL-generation invocations: if
the external toolchain process exits zero the operation succeeds (the sign
and CRL operations returning the output node's file content), and if it
exits non-zero the operation fails with the CA-tool error carrying the
process's captured combined output. -/
theorem C8_toolchain_failure_mapping :
    (∀ (env : TmpEnvObj) (run : Toolchain) (addArgs : List String) (fs : FS)
       (args cmd : List String) (outc : ProcOutcome) (fs' : FS),
      getPkcs11OpensslCommandArgs env = .ok args →
      cmd = ["openssl", "ca", "-config", env.ssl_conf.path, "-notext",
             "-in", env.csr.path, "-out", env.gen_cert.path, "-batch"]
            ++ args ++ addArgs →
      run cmd fs = (outc, fs') →
      (outc.exitCode ≠ 0 →
        executeCertGeneration env run addArgs fs = .error (.runtimeCAEnv outc.output))
      ∧ (outc.exitCode = 0 → ∀ c, FS.lookup fs' env.gen_cert.path = some (.file c) →
          executeCertGeneration env run addArgs fs = .ok (c, fs')))
    ∧ (∀ (env : TmpEnvObj) (run : Toolchain) (fs : FS)
       (args cmd : List String) (outc : ProcOutcome) (fs' : FS),
      getPkcs11OpensslCommandArgs env = .ok args →
      cmd = ["openssl", "ca", "-config", env.ssl_conf.path,
             "-revoke", env.revoke_cert.path, "-batch"] ++ args →
      run cmd fs = (outc, fs') →
      (outc.exitCode ≠ 0 →
        executeCertRevocation env run fs = .error (.runtimeCAEnv outc.output))
      ∧ (outc.exitCode = 0 → executeCertRevocation env run fs = .ok fs'))
    ∧ (∀ (env : TmpEnvObj) (run : Toolchain) (fs : FS)
       (args cmd : List String) (outc : ProcOutcome) (fs' : FS),
      getPkcs11OpensslCommandArgs env = .ok args →
      cmd = ["openssl", "ca", "-config", env.ssl_conf.path,
             "-gencrl", "-out", env.ca_crl.path, "-batch"] ++ args →
      run cmd fs = (outc, fs') →
      (outc.exitCode ≠ 0 →
        executeCrlGeneration env run fs = .error (.runtimeCAEnv outc.output))
      ∧ (outc.exitCode = 0 → ∀ c, FS.lookup fs' env.ca_crl.path = some (.file c) →
          executeCrlGeneration env run fs = .ok (c, fs'))) := by
  refine ⟨?_, ?_, ?_⟩
  · intro env run addArgs fs args cmd outc fs' hargs hcmd hrun
    subst hcmd
    simp only [List.append_assoc, List.cons_append, List.nil_append] at hrun
    constructor
    · intro hne
      simp [executeCertGeneration, executeCommand, hargs, hrun, hne,
        bind, Except.bind, pure, Except.pure]
    · intro hz c hc
      simp [executeCertGeneration, executeCommand, hargs, hrun, hz, read_file, hc,
        bind, Except.bind, pure, Except.pure]
  · intro env run fs args cmd outc fs' hargs hcmd hrun
    subst hcmd
    simp only [List.append_assoc, List.cons_append, List.nil_append] at hrun
    constructor
    · intro hne
      simp [executeCertRevocation, executeCommand, hargs, hrun, hne,
        bind, Except.bind, pure, Except.pure]
    · intro hz
      simp [executeCertRevocation, executeCommand, hargs, hrun, hz,
        bind, Except.bind, pure, Except.pure]
  · intro env run fs args cmd outc fs' hargs hcmd hrun
    subst hcmd
    simp only [List.append_assoc, List.cons_append, List.nil_append] at hrun
    constructor
    · intro hne
      simp [executeCrlGeneration, executeCommand, hargs, hrun, hne,
        bind, Except.bind, pure, Except.pure]
    · intro hz c hc
      simp [executeCrlGeneration, executeCommand, hargs, hrun, hz, read_file, hc,
        bind, Except.bind, pure, Except.pure]

/-- Witness for C8: against a freshly prepared sandbox, a toolchain oracle
exiting 1 with output `boom` fails the sign operation with the CA-tool
error carrying `boom`; one exiting 0 after writing the output certificate
succeeds with that certificate. -/
theorem C8_witness :
    executeCertGeneration (prepareDirStructures none "/tmp/t" [("/tmp/t", .dir)]).1
        (fun _ fs => (⟨1, "boom"⟩, fs)) [] []
      = .error (.runtimeCAEnv "boom")
    ∧ executeCertGeneration (prepareDirStructures none "/tmp/t" [("/tmp/t", .dir)]).1
        (fun _ fs => (⟨0, ""⟩, fs.set "/tmp/t/certs/cert.pem" (.file "PEM"))) [] []
      = .ok ("PEM", FS.set [] "/tmp/t/certs/cert.pem" (.file "PEM")) :=
  ⟨(C8_toolchain_failure_mapping.1 (prepareDirStructures none "/tmp/t" [("/tmp/t", .dir)]).1
      (fun _ fs => (⟨1, "boom"⟩, fs)) [] [] [] _ ⟨1, "boom"⟩ []
      rfl rfl rfl).1 (by decide),
   (C8_toolchain_failure_mapping.1 (prepareDirStructures none "/tmp/t" [("/tmp/t", .dir)]).1
      (fun _ fs => (⟨0, ""⟩, fs.set "/tmp/t/certs/cert.pem" (.file "PEM"))) [] [] [] _ ⟨0, ""⟩
      (FS.set [] "/tmp/t/certs/cert.pem" (.file "PEM")) rfl rfl rfl).2 (by decide)
      "PEM" (by decide)⟩

/-- **C9.** For every CA entity and key-material locator: a `pkcs11:`
locator (well-formed per the locator grammar, i.e. splitting on `:` with
maxsplit 3 yields the four parts) produces a hardware-engine descriptor
with the extra-argument string split on whitespace and no raw key bytes;
any other locator is read as a key file path and produces raw key bytes
and no descriptor. -/
theorem C9_env_configuration_builder :
    (∀ (readKeyFile : String → Except PyErr String) (ca : CA) (p s0 d m extra : String),
      pyStartsWith p "pkcs11:" = true →
      pySplitLimit ':' 3 p = [s0, d, m, extra] →
      get_ca_env_configuration readKeyFile ca p = .ok
        { ca := ca,
          tmp_env_init_kwargs_base :=
            { ssl_conf := ca.ssl_config,
              index_attr := DEFAULT_INDEX_ATTR_CONTENT,
              ca_cert := ca.certificate,
              pkcs11_opts_dict := some ⟨d, m, pySplitWhitespace extra⟩,
              ca_key := none } })
    ∧ (∀ (readKeyFile : String → Except PyErr String) (ca : CA) (p key : String),
      pyStartsWith p "pkcs11:" = false →
      readKeyFile p = .ok key →
      get_ca_env_configuration readKeyFile ca p = .ok
        { ca := ca,
          tmp_env_init_kwargs_base :=
            { ssl_conf := ca.ssl_config,
              index_attr := DEFAULT_INDEX_ATTR_CONTENT,
              ca_cert := ca.certificate,
              pkcs11_opts_dict := none,
              ca_key := some key } }) := by
  constructor
  · intro readKeyFile ca p s0 d m extra h1 h2
    simp [get_ca_env_configuration, h1, h2, pure, Except.pure]
  · intro readKeyFile ca p key h1 h2
    simp [get_ca_env_configuration, h1, h2, bind, Except.bind, pure, Except.pure]

/-- Witness for C9: a `pkcs11:` locator with extra arguments, and a plain
file-path locator, at concrete inputs. -/
theorem C9_witness :
    get_ca_env_configuration (fun p => .ok ("KEY@" ++ p))
        ⟨"CFG", "CERT", "client", []⟩ "pkcs11:/e.so:/m.so:-keyfile foo -keyform spam"
      = .ok
        { ca := ⟨"CFG", "CERT", "client", []⟩,
          tmp_env_init_kwargs_base :=
            { ssl_conf := "CFG",
              index_attr := DEFAULT_INDEX_ATTR_CONTENT,
              ca_cert := "CERT",
              pkcs11_opts_dict :=
                some ⟨"/e.so", "/m.so", pySplitWhitespace "-keyfile foo -keyform spam"⟩,
              ca_key := none } }
    ∧ get_ca_env_configuration (fun p => .ok ("KEY@" ++ p))
        ⟨"CFG", "CERT", "client", []⟩ "/etc/ca/key.pem"
      = .ok
        { ca := ⟨"CFG", "CERT", "client", []⟩,
          tmp_env_init_kwargs_base :=
            { ssl_conf := "CFG",
              index_attr := DEFAULT_INDEX_ATTR_CONTENT,
              ca_cert := "CERT",
              pkcs11_opts_dict := none,
              ca_key := some "KEY@/etc/ca/key.pem" } } :=
  ⟨C9_env_configuration_builder.1 _ _ _ "pkcs11" "/e.so" "/m.so"
      "-keyfile foo -keyform spam" (by decide) (by decide),
   C9_env_configuration_builder.2 _ _ _ "KEY@/etc/ca/key.pem" (by decide) rfl⟩

/-- **C10.** Setting `value` on a node whose computed path is an existing
directory records the content in memory but leaves the filesystem
unchanged; a node whose path is not a directory has its content persisted
to a file at that path. -/
theorem C10_directory_node_no_write (ds : DirectoryStructure) (fs : FS) (v : String)
    (hname : ds.name ≠ "openssl.cnf") :
    (fs.isDir ds.path = true →
      ds.setValue fs v none = .ok ({ ds with nodeValue := some (.str v) }, fs))
    ∧ (fs.isDir ds.path = false →
      ds.setValue fs v none
        = .ok ({ ds with nodeValue := some (.str v) }, fs.set ds.path (.file v))) := by
  constructor
  · intro hdir
    have hdir' : fs.isDir (ds.pathBase ++ ds.relative_pth ++ ds.name) = true := by
      simpa [DirectoryStructure.path] using hdir
    simp [DirectoryStructure.setValue, DirectoryStructure.path, hname, hdir',
      bind, Except.bind, pure, Except.pure]
  · intro hdir
    have hdir' : fs.isDir (ds.pathBase ++ ds.relative_pth ++ ds.name) = false := by
      simpa [DirectoryStructure.path] using hdir
    simp [DirectoryStructure.setValue, DirectoryStructure.path, hname, hdir',
      bind, Except.bind, pure, Except.pure, NodeValue.render]

/-- Witness for C10: the certificates output-directory node (file name
empty, path `certs/`) of a freshly prepared sandbox: its parent directory
exists, so setting its value changes nothing on disk; and the CA
certificate node does get its file written. -/
theorem C10_witness :
    ((prepareDirStructures none "/tmp/t" [("/tmp/t", .dir)]).1.certs_dir).setValue
        (prepareDirStructures none "/tmp/t" [("/tmp/t", .dir)]).2 "CONTENT" none
      = .ok ({ (prepareDirStructures none "/tmp/t" [("/tmp/t", .dir)]).1.certs_dir
                 with nodeValue := some (.str "CONTENT") },
             (prepareDirStructures none "/tmp/t" [("/tmp/t", .dir)]).2)
    ∧ ((prepareDirStructures none "/tmp/t" [("/tmp/t", .dir)]).1.ca_cert).setValue
        (prepareDirStructures none "/tmp/t" [("/tmp/t", .dir)]).2 "PEM" none
      = .ok ({ (prepareDirStructures none "/tmp/t" [("/tmp/t", .dir)]).1.ca_cert
                 with nodeValue := some (.str "PEM") },
             ((prepareDirStructures none "/tmp/t" [("/tmp/t", .dir)]).2).set
               "/tmp/t/cacert.pem" (.file "PEM")) :=
  ⟨(C10_directory_node_no_write _ _ "CONTENT" (by decide)).1 (by decide),
   (C10_directory_node_no_write _ _ "PEM" (by decide)).2 (by decide)⟩

end CaEnv
